import Mathlib

/-!
Verification of the position/state engine of a configurable chess-variant
engine, shallowly embedded from `src/position.cpp`.

Conventions of the embedding:
* bitboards, squares and hash keys are `Nat` (bitwise `&&&`, `|||`, `^^^`,
  `<<<` match the C++ operators; keys combine by XOR only, so no overflow
  arises);
* evaluation values (the C++ `Value`) are `Int`;
* `NO_PIECE` / `MOVE_NONE` become `Option`;
* external collaborators that `position.cpp` only reads (precomputed attack
  tables from the movement-pattern compiler, the immutable variant
  configuration record, the Zobrist PRNG tables) are abstracted as explicit
  function-valued fields or parameters, exactly at the call interface the
  source uses;
* loops walking the backward chain of state records are modelled over a
  total function `Nat → record` giving the record a given even/odd ply
  distance back from the current state.
-/

namespace FSX

abbrev Bitboard := Nat
abbrev Square := Nat
abbrev Key := Nat

/-- Colors, as in types.h; `flip` is the C++ `~` on `Color`. -/
inductive Color where
  | white : Color
  | black : Color
deriving DecidableEq, Repr

def Color.flip : Color → Color
  | Color.white => Color.black
  | Color.black => Color.white

/-- Piece types are open-ended small integers (types.h assigns ids to the
fairy piece set; the exact numbers are immaterial to the claims, only
distinctness and the shared `ALL_PIECES = 0` id matter). -/
abbrev PieceType := Nat

def NO_PIECE_TYPE : PieceType := 0
def ALL_PIECES : PieceType := 0
def PAWN : PieceType := 1
def KNIGHT : PieceType := 2
def BISHOP : PieceType := 3
def ROOK : PieceType := 4
def QUEEN : PieceType := 5
def FERS : PieceType := 6
def WAZIR : PieceType := 7
def ARCHBISHOP : PieceType := 8
def CHANCELLOR : PieceType := 9
def COMMONER : PieceType := 10
def SOLDIER : PieceType := 11
def SHOGI_PAWN : PieceType := 12
def SHOGI_KNIGHT : PieceType := 13
def GOLD : PieceType := 14
def SILVER : PieceType := 15
def LANCE : PieceType := 16
def DRAGON : PieceType := 17
def DRAGON_HORSE : PieceType := 18
def BREAKTHROUGH_PIECE : PieceType := 19
def CLOBBER_PIECE : PieceType := 20
def JANGGI_CANNON : PieceType := 21
def KING : PieceType := 30

/-- A `PieceSet` is a bitset over piece-type ids, as in types.h. -/
abbrev PieceSet := Nat

def piece_set (pt : PieceType) : PieceSet := 1 <<< pt

/-- A colored piece; board squares hold `Option Piece` (`none` = `NO_PIECE`). -/
structure Piece where
  color : Color
  pt : PieceType
deriving DecidableEq, Repr

def make_piece (c : Color) (pt : PieceType) : Piece := ⟨c, pt⟩

def Piece.flip (p : Piece) : Piece := ⟨p.color.flip, p.pt⟩

def type_of_opt : Option Piece → PieceType
  | none => NO_PIECE_TYPE
  | some p => p.pt

def color_of_opt : Option Piece → Option Color
  | none => none
  | some p => some p.color

/-- Move types, as in types.h (`MoveType`). -/
inductive MoveT where
  | NORMAL : MoveT
  | PROMOTION : MoveT
  | PIECE_PROMOTION : MoveT
  | PIECE_DEMOTION : MoveT
  | EN_PASSANT : MoveT
  | CASTLING : MoveT
  | DROP : MoveT
  | SPECIAL : MoveT
deriving DecidableEq, Repr

/-- A move, with the accessor functions of types.h flattened into fields
(the C++ `Move` is a bit-packed integer; `from_sq`, `to_sq`,
`type_of`, `dropped_piece_type`, `exchange_piece`, `gating_type`,
`gating_square`, `is_gating` are its accessors). -/
structure Move where
  mtype : MoveT
  fromSq : Square
  toSq : Square
  promotionPt : PieceType := NO_PIECE_TYPE
  inHandPt : PieceType := NO_PIECE_TYPE
  dropPt : PieceType := NO_PIECE_TYPE
  exchangePt : PieceType := NO_PIECE_TYPE
  gating : Bool := false
  gatingPt : PieceType := NO_PIECE_TYPE
  gatingSq : Square := 0
deriving DecidableEq, Repr

/- ---------------------------------------------------------------------
Bit helpers shared by all embedded loops (`lsb`, `pop_lsb`,
`least_significant_square_bb` of bitboard.h, operating on `Nat`).
--------------------------------------------------------------------- -/

/-- Fuelled trailing-zero count (the fuel only bounds the recursion; any
fuel at least the bit length is exact). -/
def lsbIdxAux : Nat → Nat → Nat
  | 0, _ => 0
  | fuel + 1, b => if b % 2 = 1 then 0 else lsbIdxAux fuel (b / 2) + 1

/-- Index of the least significant set bit (`lsb` of bitboard.h);
0 for the empty board, which the source never queries. -/
def lsbIdx (b : Nat) : Nat := lsbIdxAux b b

/-- The isolated least significant bit (`least_significant_square_bb`). -/
def lsbBB (b : Nat) : Nat := b &&& (b ^^^ (b - 1))

/-- `pop_lsb`: the bitboard with its least significant bit cleared. -/
def popLsb (b : Nat) : Nat := b &&& (b - 1)

/-- Square-to-bitboard conversion (`square_bb`). -/
def square_bb (s : Square) : Bitboard := 1 <<< s

/-- Membership test of a square in a bitboard (the C++ `b & s` truth test). -/
def bbTest (b : Bitboard) (s : Square) : Bool := (b &&& square_bb s) ≠ 0

/-- Membership test of a piece type in a `PieceSet` (the C++ `ps & pt`). -/
def psTest (ps : PieceSet) (pt : PieceType) : Bool := (ps &&& piece_set pt) ≠ 0

/- ---------------------------------------------------------------------
Repetition bookkeeping after `do_move` (position.cpp:2512-2529).

The backward chain of `StateInfo` records is modelled by a total function
`stAt : Nat → RepRec`: `stAt d` is the record `d` plies before the current
one (`stAt 0` is the record `do_move` just filled, up to its `repetition`
field). Only the `key` and `repetition` fields are read by this loop.
--------------------------------------------------------------------- -/

structure RepRec where
  key : Key
  repetition : Int
deriving DecidableEq, Repr

/-- `end` of position.cpp:2516: the reversibility horizon,
`captures_to_hand() ? st->pliesFromNull : std::min(st->rule50, st->pliesFromNull)`. -/
def repetitionEnd (capturesToHand : Bool) (rule50 pliesFromNull : Nat) : Nat :=
  if capturesToHand then pliesFromNull else min rule50 pliesFromNull

/-- The `for (int i = 4; i <= end; i += 2)` scan of position.cpp:2520-2528,
fuelled (the fuel strictly exceeds the number of iterations whenever
`endP < i + 2 * fuel`). -/
def repScanAux (fuel : Nat) (stAt : Nat → RepRec) (k : Key) (endP i : Nat) : Int :=
  match fuel with
  | 0 => 0
  | fuel + 1 =>
    if i ≤ endP then
      if (stAt i).key = k then
        (if (stAt i).repetition ≠ 0 then -(i : Int) else (i : Int))
      else
        repScanAux fuel stAt k endP (i + 2)
    else 0

/-- The repetition field computed at the end of `do_move`
(position.cpp:2512-2529). -/
def stRepetition (capturesToHand : Bool) (rule50 pliesFromNull : Nat)
    (stAt : Nat → RepRec) : Int :=
  let endP := repetitionEnd capturesToHand rule50 pliesFromNull
  if 4 ≤ endP then
    repScanAux (endP + 1) stAt (stAt 0).key endP 4
  else 0

/-- Concrete chain used to separate the computed repetition field from the
claimed encoding: the current key recurs two plies back (as after two
successive pass moves), and nowhere else inside the horizon. -/
def repChainCE : Nat → RepRec :=
  fun d => if d = 0 ∨ d = 2 then ⟨7, 0⟩ else ⟨100 + d, 0⟩

/-- Concrete chain with a repetition four plies back, used to instantiate the
characterization of the repetition field. -/
def repChainW : Nat → RepRec :=
  fun d => if d = 0 ∨ d = 4 then ⟨7, 0⟩ else ⟨50 + d, 0⟩

/- ---------------------------------------------------------------------
Values (types.h) and mate-value plying.
--------------------------------------------------------------------- -/

def VALUE_DRAW : Int := 0
def VALUE_MATE : Int := 32000

def mate_in (ply : Nat) : Int := VALUE_MATE - ply

def mated_in (ply : Nat) : Int := -VALUE_MATE + ply

/-- Modelled from the spec: `convert_mate_value` (declared in position.h,
which is outside src/) folds a configured terminal value into the
"mate in / mated at ply" convention the adjudication results use
(spec section 4.6). -/
def convert_mate_value (v : Int) (ply : Nat) : Int :=
  if v = VALUE_MATE then mate_in ply
  else if v = -VALUE_MATE then mated_in ply
  else v

/- ---------------------------------------------------------------------
`is_optional_game_end` (position.cpp:3065-3197).

The chain of state records is modelled by `stAt : Nat → OptRec`, the record
`d` plies back. Helpers declared in headers outside src/ are abstracted at
their call interface: `undo_move_board` (an oracle function `undoMB`),
`MoveList<LEGAL>(*this).size()` (`hasLegal`), `material_counting_result()`
(`matCountRes`), `counting_ply`/`counting_limit` (`countingPlyV` /
`countingLimitV`), and the two position scans of the sittuyin branch
(`sittuyinCountsOk`, `promotionsOnly`).
--------------------------------------------------------------------- -/

structure OptRec where
  key : Key
  checkersBB : Bitboard
  chased : Bitboard
  mv : Option Move
  captured : Bool
deriving DecidableEq, Repr

/-- `reverse_move` of types.h: `make_move(to_sq(m), from_sq(m))` (a plain
`NORMAL` move). -/
def reverse_move (m : Move) : Move :=
  { mtype := MoveT.NORMAL, fromSq := m.toSq, toSq := m.fromSq }

def reverse_move_opt : Option Move → Move
  | none => { mtype := MoveT.NORMAL, fromSq := 0, toSq := 0 }
  | some m => reverse_move m

/-- `type_of` applied to a possibly-null move (`MOVE_NONE` packs to type
`NORMAL`). -/
def type_of_move : Option Move → MoveT
  | none => MoveT.NORMAL
  | some m => m.mtype

/-- `is_pass` on a possibly-null move (a `SPECIAL`-typed move whose source
and destination square coincide; types.h is outside src/). -/
def is_pass : Option Move → Bool
  | none => false
  | some m => m.mtype = MoveT.SPECIAL && m.fromSq = m.toSq

def from_sq_opt : Option Move → Square
  | none => 0
  | some m => m.fromSq

def to_sq_opt : Option Move → Square
  | none => 0
  | some m => m.toSq

/-- The variant-configuration fields `is_optional_game_end` reads
(the configuration object is external and immutable, spec section 3). -/
structure OptCfg where
  nMoveRule : Nat
  nFoldRule : Nat
  chasingRuleAXF : Bool
  materialCounting : Bool
  perpetualCheckIllegal : Bool
  moveRepetitionIllegal : Bool
  capturesToHand : Bool
  nFoldValue : Int
  nFoldValueAbsolute : Bool
  countingRule : Bool
  sittuyinPromotion : Bool
  protocolExtra : Bool

/-- The position/state data `is_optional_game_end` reads, with the
external oracles listed above. -/
structure OptPos where
  stm : Color
  stAt : Nat → OptRec
  rule50 : Nat
  pliesFromNull : Nat
  countingLimit : Nat
  boardBbHit : Bool
  undoMB : Bitboard → Option Move → Bitboard
  hasLegal : Bool
  matCountRes : Int
  countingPlyV : Nat
  countingLimitV : Nat
  sittuyinCountsOk : Bool
  promotionsOnly : Bool

/-- The AXF-chasing offset scan of position.cpp:3073-3082 (`checkThem` /
`checkUs` accumulation over the last `min(rule50, pliesFromNull)` plies). -/
def axfLoop (stAt : Nat → OptRec) (end2 : Nat) : Nat → Nat → Nat → Nat → Nat × Nat
  | 0, _, ct, cu => (ct, cu)
  | fuel + 1, i, ct, cu =>
    if i < end2 then
      axfLoop stAt end2 fuel (i + 2)
        (ct + (if (stAt i).checkersBB ≠ 0 then 1 else 0))
        (cu + (if (stAt (i + 1)).checkersBB ≠ 0 then 1 else 0))
    else (ct, cu)

/-- One step of the Janggi move-repetition automaton
(position.cpp:3114-3136), with `stp` standing at distance `i - 2`.
Returns the updated counter, or a terminal result. -/
def janggiStep (stAt : Nat → OptRec) (endP i mrep : Nat) :
    Sum Nat Int :=
  if mrep > 0 then
    if i + 1 ≤ endP ∧ (stAt (i + 1)).checkersBB ≠ 0 then Sum.inl 0
    else if mrep < 4 then
      (if (stAt i).mv = some (reverse_move_opt
            ((if mrep = 1 then stAt 0 else stAt (i - 2)).mv))
        then Sum.inl (mrep + 1) else Sum.inl 0)
    else
      (if ¬(stAt i).captured ∧
          from_sq_opt ((stAt (i - 2)).mv) = to_sq_opt ((stAt i).mv)
        then Sum.inr VALUE_MATE else Sum.inl 0)
  else Sum.inl mrep

/-- The n-fold repetition scan of position.cpp:3111-3162, fuelled.
State: distance `i`, match count `cnt`, perpetual-check flags, chase
bitboards and Janggi counter, exactly as the source loop carries them. -/
def nFoldLoop (cfg : OptCfg) (pos : OptPos) (ply endP : Nat) :
    Nat → Nat → Nat → Bool → Bool → Bitboard → Bitboard → Nat → Option Int
  | 0, _, _, _, _, _, _, _ => none
  | fuel + 1, i, cnt, pThem, pUs, chThem, chUs, mrep =>
    if i ≤ endP then
      match janggiStep pos.stAt endP i mrep with
      | Sum.inr v => some v
      | Sum.inl mrep2 =>
        let chThem2 := if i ≠ pos.pliesFromNull then
            pos.undoMB chThem ((pos.stAt (i - 1)).mv) &&& (pos.stAt i).chased
          else chThem
        let pThem2 := pThem && ((pos.stAt i).checkersBB ≠ 0)
        if (pos.stAt i).key = (pos.stAt 0).key then
          if cnt + 1 + 1 ≥
              (if ply > i ∧ mrep2 = 0 ∧ chUs = 0 ∧ chThem2 = 0 ∧
                  pUs = false ∧ pThem2 = false
                then 2 else cfg.nFoldRule) then
            let r1 := convert_mate_value
              (if pThem2 || pUs then
                  (if pUs = false then VALUE_MATE
                    else if pThem2 = false then -VALUE_MATE else VALUE_DRAW)
                else if chThem2 ≠ 0 ∨ chUs ≠ 0 then
                  (if chUs = 0 then VALUE_MATE
                    else if chThem2 = 0 then -VALUE_MATE else VALUE_DRAW)
                else if cfg.nFoldValueAbsolute ∧ pos.stm = Color.black then
                  -cfg.nFoldValue
                else cfg.nFoldValue) ply
            some (if r1 = VALUE_DRAW ∧ cfg.materialCounting then
                convert_mate_value pos.matCountRes ply else r1)
          else
            let pUs2 := if i + 1 ≤ endP then
                pUs && ((pos.stAt (i + 1)).checkersBB ≠ 0) else pUs
            let chUs2 := if i + 1 ≤ endP then
                pos.undoMB chUs ((pos.stAt i).mv) &&& (pos.stAt (i + 1)).chased
              else chUs
            nFoldLoop cfg pos ply endP fuel (i + 2) (cnt + 1)
              pThem2 pUs2 chThem2 chUs2 mrep2
        else
          let pUs2 := if i + 1 ≤ endP then
              pUs && ((pos.stAt (i + 1)).checkersBB ≠ 0) else pUs
          let chUs2 := if i + 1 ≤ endP then
              pos.undoMB chUs ((pos.stAt i).mv) &&& (pos.stAt (i + 1)).chased
            else chUs
          nFoldLoop cfg pos ply endP fuel (i + 2) cnt
            pThem2 pUs2 chThem2 chUs2 mrep2
    else none

/-- `is_optional_game_end` (position.cpp:3065-3197): `some v` models
`result = v; return true`, `none` models `return false`. -/
def is_optional_game_end (cfg : OptCfg) (pos : OptPos) (ply : Nat) :
    Option Int :=
  -- n-move rule (position.cpp:3068-3090)
  let nmove : Option Int :=
    if cfg.nMoveRule ≠ 0 ∧ (pos.rule50 : Int) > 2 * cfg.nMoveRule - 1 ∧
        ((pos.stAt 0).checkersBB = 0 ∨ pos.hasLegal) then
      let offset : Int :=
        if cfg.chasingRuleAXF ∧ pos.pliesFromNull ≥ 20 then
          let end2 := min pos.rule50 pos.pliesFromNull
          let cts := axfLoop pos.stAt end2 end2 2
            (if (pos.stAt 0).checkersBB ≠ 0 then 1 else 0)
            (if (pos.stAt 1).checkersBB ≠ 0 then 1 else 0)
          2 * max ((max cts.1 cts.2 : Int) - 10) 0 +
            20 * (if cfg.protocolExtra then 1 else 0)
        else 0
      if (pos.rule50 : Int) - offset > 2 * cfg.nMoveRule - 1 then
        some (if cfg.materialCounting then
            convert_mate_value pos.matCountRes ply else VALUE_DRAW)
      else none
    else none
  match nmove with
  | some v => some v
  | none =>
    -- n-fold repetition (position.cpp:3092-3164)
    let nfold : Option Int :=
      if cfg.nFoldRule ≠ 0 then
        let endP := repetitionEnd cfg.capturesToHand pos.rule50 pos.pliesFromNull
        if endP ≥ 4 then
          let pThem := cfg.perpetualCheckIllegal &&
            ((pos.stAt 0).checkersBB ≠ 0) && ((pos.stAt 2).checkersBB ≠ 0)
          let pUs := cfg.perpetualCheckIllegal &&
            ((pos.stAt 1).checkersBB ≠ 0) && ((pos.stAt 3).checkersBB ≠ 0)
          let chThem := pos.undoMB (pos.stAt 0).chased ((pos.stAt 1).mv) &&&
            (pos.stAt 2).chased
          let chUs := pos.undoMB (pos.stAt 1).chased ((pos.stAt 2).mv) &&&
            (pos.stAt 3).chased
          let mrep : Nat :=
            if cfg.moveRepetitionIllegal ∧
                type_of_move ((pos.stAt 0).mv) = MoveT.NORMAL ∧
                (pos.stAt 1).checkersBB = 0 ∧ (pos.stAt 3).checkersBB = 0 ∧
                pos.boardBbHit then
              (if (pos.stAt 2).mv = some (reverse_move_opt ((pos.stAt 0).mv))
                then 2 else if is_pass ((pos.stAt 2).mv) then 1 else 0)
            else 0
          nFoldLoop cfg pos ply endP (endP + 1) 4 0 pThem pUs chThem chUs mrep
        else none
      else none
    match nfold with
    | some v => some v
    | none =>
      -- counting rules (position.cpp:3167-3174)
      if cfg.countingRule ∧ pos.countingLimit ≠ 0 ∧
          pos.countingPlyV > pos.countingLimitV ∧
          ((pos.stAt 0).checkersBB = 0 ∨ pos.hasLegal) then
        some VALUE_DRAW
      -- sittuyin stalemate due to optional promotion (position.cpp:3177-3194)
      else if cfg.sittuyinPromotion ∧ pos.sittuyinCountsOk ∧
          (pos.stAt 0).checkersBB = 0 ∧ pos.promotionsOnly then
        some VALUE_DRAW
      else none

/-- Number of states with the current key at even distances `i, i+2, ...`
up to `i2`, mirroring the `++cnt` bookkeeping of the repetition scan. -/
def matchCount (stAt : Nat → OptRec) (k : Key) (i i2 : Nat) : Nat :=
  if _h : i ≤ i2 then
    (if (stAt i).key = k then 1 else 0) + matchCount stAt k (i + 2) i2
  else 0
termination_by i2 + 1 - i
decreasing_by omega

/-- A plain threefold-repetition rule configuration (draw value, no
perpetual-check / chase / Janggi / material-counting refinements, no
n-move or counting or sittuyin rule). -/
def cfg3fold : OptCfg :=
  { nMoveRule := 0, nFoldRule := 3, chasingRuleAXF := false,
    materialCounting := false, perpetualCheckIllegal := false,
    moveRepetitionIllegal := false, capturesToHand := false,
    nFoldValue := VALUE_DRAW, nFoldValueAbsolute := false,
    countingRule := false, sittuyinPromotion := false,
    protocolExtra := false }

/-- Base position data for the repetition scenarios; only the key chain is
varied. -/
def optPosOf (stAt : Nat → OptRec) (r50 pfn : Nat) : OptPos :=
  { stm := Color.white, stAt := stAt, rule50 := r50, pliesFromNull := pfn,
    countingLimit := 0, boardBbHit := false, undoMB := fun b _ => b,
    hasLegal := true, matCountRes := VALUE_DRAW, countingPlyV := 0,
    countingLimitV := 0, sittuyinCountsOk := false, promotionsOnly := false }

/-- Chain in which the current position occurred three times (the two
earlier occurrences four and eight plies back). -/
def chain3W : Nat → OptRec :=
  fun d => ⟨if d = 0 ∨ d = 4 ∨ d = 8 then 5 else 60 + d, 0, 0, none, false⟩

/-- Chain in which the current position occurred only twice (the single
earlier occurrence four plies back). -/
def chain2CE : Nat → OptRec :=
  fun d => ⟨if d = 0 ∨ d = 4 then 9 else 60 + d, 0, 0, none, false⟩

/- ---------------------------------------------------------------------
`is_immediate_game_end`, extinction branch (position.cpp:3203-3220).
The iteration `for (PieceSet ps = extinction_piece_types(); ps;)`
with `pt = pop_lsb(ps)` visits the configured piece types in ascending id
order; it is modelled as a fold over the configured list of types.
`count_with_hand` (position.h, board count plus hand count) is the
abstract function `cwh`. The adjudication chain after the extinction block
(flag capture, castling wins, nCheck, points, connection rules, ...) is
abstracted as `restAdjudication`; the claims touch only the extinction
block, which precedes everything else and returns without consulting it.
--------------------------------------------------------------------- -/

structure ImmCfg where
  extinctionValue : Option Int
  extinctionPseudoRoyal : Bool
  blastOnCapture : Bool
  extinctionPieceTypes : List PieceType
  extinctionPieceCount : Int
  extinctionOpponentPieceCount : Int
  extinctionClaim : Bool

/-- Modelled from the spec: the getter `extinction_value(ply)` (position.h,
outside src/) folds the configured extinction value into the mate-ply
convention of the adjudication results (spec section 4.6). -/
def extinction_value_ply (cfg : ImmCfg) (ply : Nat) : Int :=
  convert_mate_value (cfg.extinctionValue.getD VALUE_DRAW) ply

/-- The inner type loop of the extinction block (position.cpp:3210-3219)
for a fixed color `c`. -/
def extinctionScanTypes (cfg : ImmCfg) (stm : Color)
    (cwh : Color → PieceType → Int) (ply : Nat) (c : Color) :
    List PieceType → Option Int
  | [] => none
  | pt :: ps =>
    if cwh c pt ≤ cfg.extinctionPieceCount ∧
        cwh c.flip pt ≥ cfg.extinctionOpponentPieceCount +
          (if cfg.extinctionClaim ∧ c = stm then 1 else 0) then
      some (if c = stm then extinction_value_ply cfg ply
            else -extinction_value_ply cfg ply)
    else extinctionScanTypes cfg stm cwh ply c ps

/-- `is_immediate_game_end` (position.cpp:3203 onward): the extinction
block followed by the abstracted remainder of the adjudication chain. -/
def is_immediate_game_end (cfg : ImmCfg) (stm : Color)
    (cwh : Color → PieceType → Int) (ply : Nat)
    (restAdjudication : Option Int) : Option Int :=
  let ext : Option Int :=
    if cfg.extinctionValue ≠ none ∧
        (¬cfg.extinctionPseudoRoyal ∨ cfg.blastOnCapture) then
      match extinctionScanTypes cfg stm cwh ply stm.flip
          cfg.extinctionPieceTypes with
      | some v => some v
      | none => extinctionScanTypes cfg stm cwh ply stm
          cfg.extinctionPieceTypes
    else none
  match ext with
  | some v => some v
  | none => restAdjudication

/-- King-extinction configuration with the usual loss value for the side
whose king is gone. -/
def cfgExtW : ImmCfg :=
  { extinctionValue := some (-VALUE_MATE), extinctionPseudoRoyal := false,
    blastOnCapture := false, extinctionPieceTypes := [KING],
    extinctionPieceCount := 0, extinctionOpponentPieceCount := 0,
    extinctionClaim := false }

/-- Same configuration but with a win value for the extinct side (as in
giveaway-style rules, where losing the pieces is the goal). -/
def cfgExtCE : ImmCfg :=
  { extinctionValue := some VALUE_MATE, extinctionPseudoRoyal := false,
    blastOnCapture := false, extinctionPieceTypes := [KING],
    extinctionPieceCount := 0, extinctionOpponentPieceCount := 0,
    extinctionClaim := false }

/-- Counts with hand: white still has its king, black has lost its last
king. -/
def cwhKingOnlyWhite : Color → PieceType → Int :=
  fun c pt => if c = Color.white ∧ pt = KING then 1 else 0

/- ---------------------------------------------------------------------
The attack/SEE position model used by `attackers_to`
(position.cpp:1107-1184) and `see_ge` (position.cpp:2911-3060).

The precomputed attack tables (`attacks_bb`, `PseudoAttacks`,
`LeaperAttacks`, `rider_attacks_bb`, `pawn_attacks_bb`) come from the
external movement-pattern compiler (spec section 1 excludes it) and are
abstract function-valued fields. `gives_check` and `blast_see` do not
depend on the SEE threshold and enter `see_ge` only through their results,
so they are abstracted as per-move oracles. The iteration over
`piece_types()` visits the configured types in ascending id order and is
modelled as a fold over a list. Bitwise AND-NOT (`a & ~b`) is `andNot`
since `Nat` has no complement.
--------------------------------------------------------------------- -/

def andNot (a b : Nat) : Nat := a ^^^ (a &&& b)

def bToI (b : Bool) : Int := if b then 1 else 0

def VALUE_ZERO : Int := 0
def PawnValueMg : Int := 126
def KnightValueMg : Int := 781
def BishopValueMg : Int := 825
def RookValueMg : Int := 1276
def QueenValueMg : Int := 2538

structure SPos where
  sideToMove : Color
  board : Square → Option Piece
  byColorBB : Color → Bitboard
  byTypeBB : PieceType → Bitboard
  pieceCount : Color → PieceType → Nat
  -- StateInfo fields read by see_ge
  pinnersBB : Color → Bitboard
  blockersForKing : Color → Bitboard
  -- variant configuration
  pieceTypesList : List PieceType
  kingTypeC : PieceType
  fastAttacks : Bool
  fastAttacks2 : Bool
  diagonalLines : Bitboard
  soldierPromotionRank : Nat
  checkCounting : Bool
  mustCapture : Bool
  checkingPermitted : Bool
  blastOnCapture : Bool
  flyingGeneral : Bool
  wallingDuck : Bool
  extinctionValueS : Option Int
  extinctionTypesList : List PieceType
  extinctionPieceCountS : Int
  petrifyOnCaptureList : List PieceType
  -- Position-level cached zone (updatePawnCheckZone, position.cpp:3819)
  pawnCannotCheckZone : Color → Bitboard
  -- external attack tables
  attacksBbC : Color → PieceType → Square → Bitboard → Bitboard
  attacksBbT : PieceType → Square → Bitboard → Bitboard
  pseudoT : PieceType → Square → Bitboard
  pawnAttacksBb : Color → Square → Bitboard
  pseudoAttacks : Color → PieceType → Square → Bitboard
  leaperAttacks : Color → PieceType → Square → Bitboard
  riderBishopAtt : Square → Bitboard → Bitboard
  riderCannonDiagAtt : Square → Bitboard → Bitboard
  asymRider : PieceType → Bool
  boardBbCP : Color → PieceType → Bitboard
  relativeRankF : Color → Square → Nat
  -- external per-move oracles
  givesCheck : Move → Bool
  blastSeeV : Move → Int
  -- the PieceValue[MG] table of types.h
  pieceValueF : PieceType → Int

def SPos.piecesAll (P : SPos) : Bitboard := P.byTypeBB ALL_PIECES

def SPos.piecesT (P : SPos) (pt : PieceType) : Bitboard := P.byTypeBB pt

def SPos.piecesT2 (P : SPos) (a b : PieceType) : Bitboard :=
  P.byTypeBB a ||| P.byTypeBB b

def SPos.piecesC (P : SPos) (c : Color) : Bitboard := P.byColorBB c

def SPos.piecesCT (P : SPos) (c : Color) (pt : PieceType) : Bitboard :=
  P.byColorBB c &&& P.byTypeBB pt

def SPos.piecesCT2 (P : SPos) (c : Color) (a b : PieceType) : Bitboard :=
  P.byColorBB c &&& (P.byTypeBB a ||| P.byTypeBB b)

def SPos.piecesCT3 (P : SPos) (c : Color) (a b d : PieceType) : Bitboard :=
  P.byColorBB c &&& (P.byTypeBB a ||| P.byTypeBB b ||| P.byTypeBB d)

/-- `count<Pt>()`: total piece count of a type over both colors. -/
def SPos.countT (P : SPos) (pt : PieceType) : Nat :=
  P.pieceCount Color.white pt + P.pieceCount Color.black pt

/-- `moved_piece(m)` (position.h): the dropped piece for drops, the source
square's occupant otherwise. -/
def movedPiece (P : SPos) (m : Move) : Option Piece :=
  if m.mtype = MoveT.DROP then some ⟨P.sideToMove, m.dropPt⟩
  else P.board m.fromSq

def colorOfMovedD (P : SPos) (m : Move) : Color :=
  match movedPiece P m with
  | some p => p.color
  | none => P.sideToMove

/-- `capture(m)` (position.h): destination occupied and not castling, or
en passant. -/
def captureM (P : SPos) (m : Move) : Bool :=
  (P.board m.toSq ≠ none && m.mtype ≠ MoveT.CASTLING) ||
    m.mtype = MoveT.EN_PASSANT

def pieceValOpt (P : SPos) : Option Piece → Int
  | none => 0
  | some pc => P.pieceValueF pc.pt

def pieceCountOpt (P : SPos) : Option Piece → Nat
  | none => 0
  | some pc => P.pieceCount pc.color pc.pt

/-- The inner while loop of the asymmetrical-rider case of the general
attacker computation (position.cpp:1144-1150), fuelled on the scanned
bitboard. -/
def asymScan (P : SPos) (c : Color) (movePt : PieceType) (s : Square)
    (occupied : Bitboard) : Nat → Bitboard → Bitboard
  | 0, _ => 0
  | fuel + 1, bb =>
    if bb ≠ 0 then
      (if bbTest (P.attacksBbC c movePt (lsbIdx bb) occupied) s
        then square_bb (lsbIdx bb) else 0) |||
      asymScan P c movePt s occupied fuel (popLsb bb)
    else 0

/-- One piece type's contribution to the general attacker loop
(position.cpp:1134-1157). -/
def attackerContribution (P : SPos) (s : Square) (occupied : Bitboard)
    (c : Color) (janggiCannons : Bitboard) (pt : PieceType) : Bitboard :=
  if bbTest (P.boardBbCP c pt) s then
    let move_pt := if pt = KING then P.kingTypeC else pt
    if P.asymRider move_pt then
      asymScan P c move_pt s occupied
        (P.pseudoAttacks c.flip move_pt s &&& P.piecesCT c pt)
        (P.pseudoAttacks c.flip move_pt s &&& P.piecesCT c pt)
    else if pt = JANGGI_CANNON then
      P.attacksBbC c.flip move_pt s occupied &&&
        P.attacksBbC c.flip move_pt s (andNot occupied janggiCannons) &&&
        P.piecesCT c JANGGI_CANNON
    else
      P.attacksBbC c.flip move_pt s occupied &&& P.piecesCT c pt
  else 0

def attackersLoop (P : SPos) (s : Square) (occupied : Bitboard) (c : Color)
    (janggiCannons : Bitboard) : List PieceType → Bitboard
  | [] => 0
  | pt :: rest =>
    attackerContribution P s occupied c janggiCannons pt |||
      attackersLoop P s occupied c janggiCannons rest

/-- The general (non-fast-path) attacker computation: the loop over the
configured piece types, the Janggi palace block and the unpromoted-soldier
correction (position.cpp:1134-1178). -/
def attackersGeneral (P : SPos) (s : Square) (occupied : Bitboard)
    (c : Color) (janggiCannons : Bitboard) : Bitboard :=
  let b := attackersLoop P s occupied c janggiCannons P.pieceTypesList
  -- Janggi palace moves
  let b :=
    if bbTest P.diagonalLines s then
      let diags :=
        (if P.kingTypeC = WAZIR then
          P.attacksBbC c.flip FERS s occupied &&& P.piecesCT c KING else 0) |||
        (P.attacksBbC c.flip FERS s occupied &&& P.piecesCT c WAZIR) |||
        (P.attacksBbC c.flip PAWN s occupied &&& P.piecesCT c SOLDIER) |||
        (P.riderBishopAtt s occupied &&& P.piecesCT c ROOK) |||
        (P.riderCannonDiagAtt s occupied &&&
          P.riderCannonDiagAtt s (andNot occupied janggiCannons) &&&
          P.piecesCT c JANGGI_CANNON)
      b ||| (diags &&& P.diagonalLines)
    else b
  -- Unpromoted soldiers
  if b &&& P.piecesT SOLDIER ≠ 0 ∧
      P.relativeRankF c s < P.soldierPromotionRank then
    b ^^^ (b &&& P.piecesT SOLDIER &&&
      andNot (b &&& P.piecesT SOLDIER) (P.pseudoAttacks c.flip SHOGI_PAWN s))
  else b

/-- `attackers_to(s, occupied, c, janggiCannons)` (position.cpp:1107-1179):
the two inlined fast paths, or the general computation. -/
def attackers_to (P : SPos) (s : Square) (occupied : Bitboard) (c : Color)
    (janggiCannons : Bitboard) : Bitboard :=
  if P.fastAttacks then
    (andNot (P.pawnAttacksBb c.flip s &&& P.piecesCT c PAWN)
      (P.pawnCannotCheckZone c)) |||
    (P.pseudoT KNIGHT s &&& P.piecesCT3 c KNIGHT ARCHBISHOP CHANCELLOR) |||
    (P.attacksBbT ROOK s occupied &&& P.piecesCT3 c ROOK QUEEN CHANCELLOR) |||
    (P.attacksBbT BISHOP s occupied &&& P.piecesCT3 c BISHOP QUEEN ARCHBISHOP) |||
    (P.pseudoT KING s &&& P.piecesCT2 c KING COMMONER)
  else if P.fastAttacks2 then
    (P.pawnAttacksBb c.flip s &&& P.piecesCT3 c PAWN BREAKTHROUGH_PIECE GOLD) |||
    (P.pseudoT KNIGHT s &&& P.piecesCT c KNIGHT) |||
    (P.attacksBbT ROOK s occupied &&&
      (P.piecesCT3 c ROOK QUEEN DRAGON |||
        (P.piecesCT c LANCE &&& P.pseudoAttacks c.flip LANCE s))) |||
    (P.attacksBbT BISHOP s occupied &&& P.piecesCT3 c BISHOP QUEEN DRAGON_HORSE) |||
    (P.pseudoT KING s &&& P.piecesCT2 c KING COMMONER) |||
    (P.pseudoT FERS s &&& P.piecesCT3 c FERS DRAGON SILVER) |||
    (P.pseudoT WAZIR s &&& P.piecesCT3 c WAZIR DRAGON_HORSE GOLD) |||
    (P.leaperAttacks c.flip SHOGI_KNIGHT s &&& P.piecesCT c SHOGI_KNIGHT) |||
    (P.leaperAttacks c.flip SHOGI_PAWN s &&& P.piecesCT2 c SHOGI_PAWN SILVER)
  else attackersGeneral P s occupied c janggiCannons

/-- The color-summed overload `attackers_to(s, occupied)`
(position.cpp:1182-1184). -/
def attackers_to_both (P : SPos) (s : Square) (occupied : Bitboard) : Bitboard :=
  attackers_to P s occupied Color.white 0 ||| attackers_to P s occupied Color.black 0

/-- Tail of one iteration of the alternating-exchange loop of `see_ge`
(position.cpp:2994-3056), from the point where the side to move's usable
attackers `stmAttackers2` have been computed: flip the provisional result,
pick the least valuable attacker, test the null-window break condition and
either stop or continue with the updated exchange state. -/
def seeStage (P : SPos) (tSq : Square)
    (rec : Color → Bitboard → Bitboard → Int → Bool → Bool)
    (stm : Color) (occupied0 attackers stmAttackers2 : Bitboard)
    (swap : Int) (res0 : Bool) : Bool :=
  if stmAttackers2 = 0 then res0
  else
    let res := !res0
    let bbP := stmAttackers2 &&& P.piecesT PAWN
    let bbN := stmAttackers2 &&& P.piecesT KNIGHT
    let bbB := stmAttackers2 &&& P.piecesT BISHOP
    let bbR := stmAttackers2 &&& P.piecesT ROOK
    let bbQ := stmAttackers2 &&& P.piecesT QUEEN
    let bbF := andNot stmAttackers2 (P.piecesT KING)
    if bbP ≠ 0 then
      let swap := PawnValueMg - swap
      if swap < bToI res then res
      else
        rec stm (occupied0 ^^^ lsbBB bbP)
          (attackers ||| (P.attacksBbT BISHOP tSq (occupied0 ^^^ lsbBB bbP) &&&
            P.piecesT2 BISHOP QUEEN)) swap res
    else if bbN ≠ 0 then
      let swap := KnightValueMg - swap
      if swap < bToI res then res
      else rec stm (occupied0 ^^^ lsbBB bbN) attackers swap res
    else if bbB ≠ 0 then
      let swap := BishopValueMg - swap
      if swap < bToI res then res
      else
        rec stm (occupied0 ^^^ lsbBB bbB)
          (attackers ||| (P.attacksBbT BISHOP tSq (occupied0 ^^^ lsbBB bbB) &&&
            P.piecesT2 BISHOP QUEEN)) swap res
    else if bbR ≠ 0 then
      let swap := RookValueMg - swap
      if swap < bToI res then res
      else
        rec stm (occupied0 ^^^ lsbBB bbR)
          (attackers ||| (P.attacksBbT ROOK tSq (occupied0 ^^^ lsbBB bbR) &&&
            P.piecesT2 ROOK QUEEN)) swap res
    else if bbQ ≠ 0 then
      let swap := QueenValueMg - swap
      if swap < bToI res then res
      else
        rec stm (occupied0 ^^^ lsbBB bbQ)
          (attackers |||
            ((P.attacksBbT BISHOP tSq (occupied0 ^^^ lsbBB bbQ) &&&
              P.piecesT2 BISHOP QUEEN) |||
             (P.attacksBbT ROOK tSq (occupied0 ^^^ lsbBB bbQ) &&&
              P.piecesT2 ROOK QUEEN))) swap res
    else if bbF ≠ 0 then
      -- fairy pieces: pick the next piece without considering value
      let swap := pieceValOpt P (P.board (lsbIdx bbF)) - swap
      if swap < bToI res then res
      else rec stm (occupied0 ^^^ lsbBB bbF) attackers swap res
    else
      -- KING: if we capture with the king but the opponent still has
      -- attackers, reverse the result
      if andNot attackers (P.piecesC stm) ≠ 0 then !res else res

/-- One iteration of the alternating-exchange loop of `see_ge`
(position.cpp:2973-3057), with the recursive continuation abstracted as
`rec`: flip the side to move, restrict the attackers to the occupancy,
filter pinned pieces and distant sliders, then run the exchange stage. -/
def seeLoopBody (P : SPos) (tSq : Square)
    (rec : Color → Bitboard → Bitboard → Int → Bool → Bool)
    (stm0 : Color) (occupied0 attackers0 : Bitboard) (swap : Int)
    (res : Bool) : Bool :=
  let stm := stm0.flip
  let attackers := attackers0 &&& occupied0
  let stmAttackers0 := attackers &&& P.piecesC stm
  if stmAttackers0 = 0 then res
  else
    -- pinned pieces may not attack while their pinners stand
    let stmAttackers1 :=
      if P.pinnersBB stm.flip &&& occupied0 ≠ 0 then
        andNot stmAttackers0 (P.blockersForKing stm)
      else stmAttackers0
    -- duck walling ignores distant sliders
    let stmAttackers2 :=
      if P.wallingDuck then
        (stmAttackers1 &&& P.pseudoT KING tSq) |||
          andNot stmAttackers1 (P.piecesT2 BISHOP ROOK ||| P.piecesT QUEEN)
      else stmAttackers1
    seeStage P tSq rec stm occupied0 attackers stmAttackers2 swap res

/-- The alternating-exchange loop of `see_ge` (position.cpp:2973-3057).
Each iteration either returns or removes one occupied square, so any fuel
exceeding the occupancy popcount is exact; `see_ge` passes `occupied + 2`. -/
def seeLoop (P : SPos) (tSq : Square) :
    Nat → Color → Bitboard → Bitboard → Int → Bool → Bool
  | 0, _, _, _, _, res => res
  | fuel + 1, stm0, occupied0, attackers0, swap, res =>
    seeLoopBody P tSq (seeLoop P tSq fuel) stm0 occupied0 attackers0 swap res

/-- `see_ge(m, threshold)` (position.cpp:2911-3060). -/
def see_ge (P : SPos) (m : Move) (threshold : Int) : Bool :=
  -- Only deal with normal moves, assume others pass a simple SEE
  if m.mtype ≠ MoveT.NORMAL ∧ m.mtype ≠ MoveT.DROP ∧
      m.mtype ≠ MoveT.PIECE_PROMOTION then
    decide (VALUE_ZERO ≥ threshold)
  -- nCheck
  else if P.checkCounting ∧ color_of_opt (movedPiece P m) = some P.sideToMove ∧
      P.givesCheck m then true
  -- Atomic explosion SEE
  else if P.blastOnCapture then decide (P.blastSeeV m ≥ threshold)
  -- Extinction
  else if P.extinctionValueS ≠ none ∧ P.board m.toSq ≠ none ∧
      ((type_of_opt (P.board m.toSq) ∈ P.extinctionTypesList ∧
        (pieceCountOpt P (P.board m.toSq) : Int) = P.extinctionPieceCountS + 1) ∨
       (ALL_PIECES ∈ P.extinctionTypesList ∧
        (P.pieceCount P.sideToMove.flip ALL_PIECES : Int) =
          P.extinctionPieceCountS + 1)) then
    decide (P.extinctionValueS.getD VALUE_ZERO < VALUE_ZERO)
  -- Do not evaluate SEE if value would be unreliable
  else if P.mustCapture ∨ ¬P.checkingPermitted ∨ m.gating ∨
      P.countT CLOBBER_PIECE = P.countT ALL_PIECES then
    decide (VALUE_ZERO ≥ threshold)
  else
    let swap1 := pieceValOpt P (P.board m.toSq) - threshold
    if swap1 < 0 then false
    else
      let swap2 := pieceValOpt P (movedPiece P m) - swap1
      if swap2 ≤ 0 then true
      -- Petrification ends SEE
      else if type_of_opt (movedPiece P m) ∈ P.petrifyOnCaptureList ∧
          captureM P m then false
      else
        let occupied := (if m.mtype ≠ MoveT.DROP then
            P.piecesAll ^^^ square_bb m.fromSq else P.piecesAll) ^^^
          square_bb m.toSq
        let stm := colorOfMovedD P m
        let attackers := attackers_to_both P m.toSq occupied
        -- Flying general rule
        let attackers :=
          if P.flyingGeneral then
            let a1 := if attackers &&& P.piecesCT stm KING ≠ 0 then
                attackers ||| (P.attacksBbC stm ROOK m.toSq
                  (andNot occupied (P.piecesT ROOK)) &&&
                  P.piecesCT stm.flip KING)
              else attackers
            if a1 &&& P.piecesCT stm.flip KING ≠ 0 then
              a1 ||| (P.attacksBbC stm.flip ROOK m.toSq
                (andNot occupied (P.piecesT ROOK)) &&& P.piecesCT stm KING)
            else a1
          else attackers
        -- Janggi cannons can not capture each other
        let attackers :=
          if type_of_opt (movedPiece P m) = JANGGI_CANNON ∧
              attackers &&& andNot (P.piecesC stm.flip)
                (P.piecesT JANGGI_CANNON) = 0 then
            andNot attackers (P.piecesCT stm.flip JANGGI_CANNON)
          else attackers
        seeLoop P m.toSq (occupied + 2) stm occupied attackers swap2 true

/-- A neutral position instance (empty board, zero tables, default
configuration); concrete scenarios override individual fields. -/
def SPosBase : SPos :=
  { sideToMove := Color.white
    board := fun _ => none
    byColorBB := fun _ => 0
    byTypeBB := fun _ => 0
    pieceCount := fun _ _ => 0
    pinnersBB := fun _ => 0
    blockersForKing := fun _ => 0
    pieceTypesList := []
    kingTypeC := KING
    fastAttacks := false
    fastAttacks2 := false
    diagonalLines := 0
    soldierPromotionRank := 0
    checkCounting := false
    mustCapture := false
    checkingPermitted := true
    blastOnCapture := false
    flyingGeneral := false
    wallingDuck := false
    extinctionValueS := none
    extinctionTypesList := []
    extinctionPieceCountS := 0
    petrifyOnCaptureList := []
    pawnCannotCheckZone := fun _ => 0
    attacksBbC := fun _ _ _ _ => 0
    attacksBbT := fun _ _ _ => 0
    pseudoT := fun _ _ => 0
    pawnAttacksBb := fun _ _ => 0
    pseudoAttacks := fun _ _ _ => 0
    leaperAttacks := fun _ _ _ => 0
    riderBishopAtt := fun _ _ => 0
    riderCannonDiagAtt := fun _ _ => 0
    asymRider := fun _ => false
    boardBbCP := fun _ _ => 0
    relativeRankF := fun _ _ => 0
    givesCheck := fun _ => false
    blastSeeV := fun _ => 0
    pieceValueF := fun _ => 0 }

/-- A pawn-takes-pawn position with no defenders, used to exercise the
exchange loop of `see_ge` concretely. -/
def seePosW : SPos :=
  { SPosBase with
    board := fun s => if s = 12 then some ⟨Color.white, PAWN⟩
      else if s = 21 then some ⟨Color.black, PAWN⟩ else none
    byColorBB := fun c => match c with
      | Color.white => square_bb 12
      | Color.black => square_bb 21
    byTypeBB := fun pt => if pt = ALL_PIECES ∨ pt = PAWN
      then square_bb 12 ||| square_bb 21 else 0
    pieceCount := fun _ pt => if pt = PAWN ∨ pt = ALL_PIECES then 1 else 0
    pieceTypesList := [PAWN]
    boardBbCP := fun _ _ => (1 <<< 64) - 1
    pieceValueF := fun pt => if pt = PAWN then 100 else 0 }

def mW : Move := { mtype := MoveT.NORMAL, fromSq := 12, toSq := 21 }

/-- A check-counting position whose oracles report every move as giving
check. -/
def P10w : SPos :=
  { seePosW with
    checkCounting := true
    givesCheck := fun _ => true }

def m10 : Move := { mtype := MoveT.NORMAL, fromSq := 12, toSq := 21 }

def mProm : Move :=
  { mtype := MoveT.PROMOTION, fromSq := 12, toSq := 21, promotionPt := QUEEN }

/- ---------------------------------------------------------------------
Material for the fast-path / general-path equivalence of `attackers_to`.
--------------------------------------------------------------------- -/

/-- The piece types the `fastAttacks` path covers (position.cpp:1110-1117):
pawns, the standard sliders and leapers, archbishop, chancellor, commoner
and the king. -/
def chessLikeTypes : List PieceType :=
  [PAWN, KNIGHT, BISHOP, ROOK, QUEEN, ARCHBISHOP, CHANCELLOR, COMMONER, KING]

/-- The piece types the `fastAttacks2` path covers (position.cpp:1121-1132). -/
def fairyTypes : List PieceType :=
  [PAWN, BREAKTHROUGH_PIECE, GOLD, KNIGHT, ROOK, QUEEN, DRAGON, LANCE, BISHOP,
   DRAGON_HORSE, KING, COMMONER, FERS, SILVER, WAZIR, SHOGI_KNIGHT, SHOGI_PAWN]

/-- The attack table of one piece type (for pieces of color `c`, attacks
towards `s`), expressed with the precomputed-table primitives the two fast
paths use. For a type covered by neither fast path the table is `0`. -/
def stdTable (P : SPos) (c : Color) (s : Square) (occ : Bitboard)
    (pt : PieceType) : Bitboard :=
  if pt = PAWN then P.pawnAttacksBb c.flip s
  else if pt = BREAKTHROUGH_PIECE then P.pawnAttacksBb c.flip s
  else if pt = GOLD then P.pawnAttacksBb c.flip s ||| P.pseudoT WAZIR s
  else if pt = KNIGHT then P.pseudoT KNIGHT s
  else if pt = BISHOP then P.attacksBbT BISHOP s occ
  else if pt = ROOK then P.attacksBbT ROOK s occ
  else if pt = QUEEN then P.attacksBbT BISHOP s occ ||| P.attacksBbT ROOK s occ
  else if pt = ARCHBISHOP then P.pseudoT KNIGHT s ||| P.attacksBbT BISHOP s occ
  else if pt = CHANCELLOR then P.pseudoT KNIGHT s ||| P.attacksBbT ROOK s occ
  else if pt = DRAGON then P.attacksBbT ROOK s occ ||| P.pseudoT FERS s
  else if pt = DRAGON_HORSE then P.attacksBbT BISHOP s occ ||| P.pseudoT WAZIR s
  else if pt = LANCE then P.attacksBbT ROOK s occ &&& P.pseudoAttacks c.flip LANCE s
  else if pt = COMMONER then P.pseudoT KING s
  else if pt = KING then P.pseudoT KING s
  else if pt = FERS then P.pseudoT FERS s
  else if pt = WAZIR then P.pseudoT WAZIR s
  else if pt = SILVER then P.pseudoT FERS s ||| P.leaperAttacks c.flip SHOGI_PAWN s
  else if pt = SHOGI_KNIGHT then P.leaperAttacks c.flip SHOGI_KNIGHT s
  else if pt = SHOGI_PAWN then P.leaperAttacks c.flip SHOGI_PAWN s
  else 0

/-- The attackers of square `s` among pieces of color `c` and type `pt`,
expressed with the fast-path table primitives. -/
def stdTerm (P : SPos) (c : Color) (s : Square) (occ : Bitboard)
    (pt : PieceType) : Bitboard :=
  stdTable P c s occ pt &&& P.piecesCT c pt

/-- Union of the per-type attacker terms over a list of types. -/
def stdUnion (P : SPos) (c : Color) (s : Square) (occ : Bitboard) :
    List PieceType → Bitboard
  | [] => 0
  | pt :: rest => stdTerm P c s occ pt ||| stdUnion P c s occ rest

/-- Configuration for the fast-path counterexample: a standard-chess-like
piece set under the prison-pawn-promotion rule, whose pawn-cannot-check
zone contains the square of a white pawn attacking square 21. Both attack
tables agree that the pawn on square 12 attacks square 21. -/
def P3ce : SPos :=
  { SPosBase with
    fastAttacks := true
    pieceTypesList := [PAWN]
    board := fun s => if s = 12 then some ⟨Color.white, PAWN⟩ else none
    byColorBB := fun c => match c with
      | Color.white => square_bb 12
      | Color.black => 0
    byTypeBB := fun pt => if pt = ALL_PIECES ∨ pt = PAWN then square_bb 12 else 0
    pawnAttacksBb := fun c s => if c = Color.black ∧ s = 21 then square_bb 12 else 0
    attacksBbC := fun c pt s _ =>
      if pt = PAWN ∧ c = Color.black ∧ s = 21 then square_bb 12 else 0
    boardBbCP := fun _ _ => (1 <<< 64) - 1
    pawnCannotCheckZone := fun c => match c with
      | Color.white => square_bb 12
      | Color.black => 0 }

/-- The hypothetical occupancy used in the fast-path scenarios. -/
def occ3 : Bitboard := square_bb 12

/-- A standard-chess-like instance with an empty pawn-cannot-check zone,
used to instantiate the amended equivalence. -/
def P3w : SPos :=
  { SPosBase with
    fastAttacks := true
    pieceTypesList := [PAWN, KNIGHT, BISHOP, ROOK, QUEEN, KING]
    board := fun s => if s = 12 then some ⟨Color.white, PAWN⟩ else none
    byColorBB := fun c => match c with
      | Color.white => square_bb 12
      | Color.black => 0
    byTypeBB := fun pt => if pt = ALL_PIECES ∨ pt = PAWN then square_bb 12 else 0
    pawnAttacksBb := fun c s => if c = Color.black ∧ s = 21 then square_bb 12 else 0
    attacksBbC := fun c pt s _ =>
      if pt = PAWN ∧ c = Color.black ∧ s = 21 then square_bb 12 else 0
    boardBbCP := fun _ _ => (1 <<< 64) - 1 }

/- ---------------------------------------------------------------------
Material for the make/unmake hand bookkeeping (do_move / undo_move).
--------------------------------------------------------------------- -/

/-- `add_to_hand(pc)` (declared in position.h, used at position.cpp:1864):
increments the in-hand count of `pc`'s color and type. -/
def add_to_hand (hand : Color → PieceType → Int) (pc : Piece) :
    Color → PieceType → Int :=
  fun c pt => if c = pc.color ∧ pt = pc.pt then hand c pt + 1 else hand c pt

/-- `remove_from_hand(pc)` (declared in position.h, used at
position.cpp:2674): decrements the in-hand count of `pc`'s color and
type. -/
def remove_from_hand (hand : Color → PieceType → Int) (pc : Piece) :
    Color → PieceType → Int :=
  fun c pt => if c = pc.color ∧ pt = pc.pt then hand c pt - 1 else hand c pt

/-- The piece `do_move` adds to the capturer's hand on a capture under
`capture_type() == HAND` (position.cpp:1861-1863): the color-flipped
captured piece, unless it was promoted outside a drop loop, in which case
the color-flipped unpromoted record or, failing that,
`make_piece(~color_of(captured), promotion_pawn_type(color_of(captured)))`. -/
def pieceToHand (capturedPromoted dropLoop : Bool) (captured : Piece)
    (unpromotedCaptured : Option Piece) (ppt : Color → PieceType) : Piece :=
  if !capturedPromoted || dropLoop then captured.flip
  else
    match unpromotedCaptured with
    | some upc => upc.flip
    | none => ⟨captured.color.flip, ppt captured.color⟩

/-- The piece `undo_move` removes from the hand when taking back the same
capture (position.cpp:2674-2678). In the fallback case it uses
`promotion_pawn_type(us)` with `us` the moving side, not
`promotion_pawn_type(color_of(st->capturedPiece))` as `do_move` did. -/
def handPieceRemoved (dropLoop capturedpromoted : Bool)
    (capturedPiece : Piece) (unpromotedCapturedPiece : Option Piece)
    (ppt : Color → PieceType) (us : Color) : Piece :=
  if !dropLoop && capturedpromoted then
    match unpromotedCapturedPiece with
    | some upc => upc.flip
    | none => ⟨capturedPiece.color.flip, ppt us⟩
  else capturedPiece.flip

/-- The hand counts after `do_move`'s addition followed by `undo_move`'s
removal for one capture, with the state fields carrying exactly the values
`do_move` stored (position.cpp:1800-1801, 2207). -/
def doUndoHand (hand : Color → PieceType → Int) (dropLoop : Bool)
    (captured : Piece) (capturedPromoted : Bool)
    (unpromotedCaptured : Option Piece) (ppt : Color → PieceType)
    (us : Color) : Color → PieceType → Int :=
  remove_from_hand
    (add_to_hand hand
      (pieceToHand capturedPromoted dropLoop captured unpromotedCaptured ppt))
    (handPieceRemoved dropLoop capturedPromoted captured unpromotedCaptured
      ppt us)

/-- A rule set whose promotion pawn type differs per color. -/
def pptC1 : Color → PieceType
  | Color.white => PAWN
  | Color.black => SOLDIER

/-- The hand after white captures a promoted black queen carrying no
unpromoted-piece record in a captures-to-hand game, then undoes the
capture, starting from empty hands. -/
def handC1 : Color → PieceType → Int :=
  doUndoHand (fun _ _ => 0) false ⟨Color.black, QUEEN⟩ true none pptC1
    Color.white

/- ---------------------------------------------------------------------
Material for the incremental-vs-scratch hash key comparison.
--------------------------------------------------------------------- -/

/-- The Zobrist table slice both key computations draw from: piece-square
keys, the side key, the in-hand keys (also used for prison counts,
position.cpp:1889-1891) and the castling entry of an unchanging rights
mask. -/
structure ZTab where
  psq : Piece → Square → Key
  side : Key
  inHand : Piece → Nat → Key
  castling0 : Key

/-- The piece-square scan of `set_state` (position.cpp:762-775) over the
occupied squares, without walls. -/
def set_state_psq (Z : ZTab) (board : Square → Option Piece) :
    List Square → Key
  | [] => 0
  | s :: rest =>
    (match board s with
     | some pc => Z.psq pc s
     | none => 0) ^^^ set_state_psq Z board rest

/-- The `key` field `set_state` computes from scratch (position.cpp:747-816)
for a rule set with no en-passant squares, no walls, castling rights fixed,
`piece_drops()` and `seirawan_gating()` disabled, and no check or points
counting: the piece-square scan, the side key for black, and the castling
entry. Note the scan has no term for prison counts. -/
def set_state_key (Z : ZTab) (board : Square → Option Piece)
    (squares : List Square) (stm : Color) : Key :=
  set_state_psq Z board squares ^^^
    (if stm = Color.black then Z.side else 0) ^^^ Z.castling0

/-- The incremental key `do_move` leaves in the new state record for a
NORMAL capture with `capture_type() == PRISON` in the same rule set:
`k = st->key ^ Zobrist::side` (position.cpp:1758), the prison pair
`Zobrist::inHand[pieceToPrison][oldN] ^ Zobrist::inHand[pieceToPrison][newN]`
(position.cpp:1889-1891), `Zobrist::psq[captured][capsq]`
(position.cpp:1920) and `Zobrist::psq[pc][from] ^ Zobrist::psq[pc][to]`
(position.cpp:1947), stored at position.cpp:2486. -/
def do_move_key_prison (Z : ZTab) (kOld : Key) (pc captured : Piece)
    (fromSq toSq : Square) (pieceToPrison : Piece) (oldN newN : Nat) : Key :=
  kOld ^^^ Z.side ^^^
    (Z.inHand pieceToPrison oldN ^^^ Z.inHand pieceToPrison newN) ^^^
    Z.psq captured toSq ^^^ (Z.psq pc fromSq ^^^ Z.psq pc toSq)

/-- Piece-square table with pairwise-distinct single-bit entries for the
pieces and squares of the concrete scenario. -/
def psqC2 : Piece → Square → Key := fun pc s =>
  1 <<< (s + 9 * pc.pt + (if pc.color = Color.black then 100 else 0))

/-- In-hand table with single-bit entries disjoint from `psqC2`. -/
def inHandC2 : Piece → Nat → Key := fun pc n =>
  1 <<< (400 + n + 9 * pc.pt + (if pc.color = Color.black then 100 else 0))

/-- A Zobrist table slice with pairwise-distinct single-bit entries for
the pieces and squares of the concrete scenario. -/
def ZC2 : ZTab :=
  { psq := psqC2
    side := 1 <<< 300
    inHand := inHandC2
    castling0 := 1 <<< 600 }

/-- Before: a white rook on square 0, a black knight on square 8. -/
def boardB2 : Square → Option Piece := fun s =>
  if s = 0 then some ⟨Color.white, ROOK⟩
  else if s = 8 then some ⟨Color.black, KNIGHT⟩ else none

/-- After the rook captures the knight, which goes to prison. -/
def boardA2 : Square → Option Piece := fun s =>
  if s = 8 then some ⟨Color.white, ROOK⟩ else none

/- ---------------------------------------------------------------------
Material for the fen / set round trip of the FEN trailer.
--------------------------------------------------------------------- -/

def isSpaceC (c : Char) : Bool := c.toNat = 32

def isDigitC (c : Char) : Bool := 48 ≤ c.toNat && c.toNat ≤ 57

/-- `ss >> token` for a `char` with `skipws` in effect: whitespace is
skipped, then one character is consumed. -/
def readCharSkip : List Char → Option (Char × List Char)
  | [] => none
  | c :: rest => if isSpaceC c then readCharSkip rest else some (c, rest)

/-- `ss >> token` for a `char` with `noskipws` in effect. -/
def readCharNoSkip : List Char → Option (Char × List Char)
  | [] => none
  | c :: rest => some (c, rest)

/-- `ss.peek()`. -/
def peekC (s : List Char) : Option Char := s.head?

def readDigits (acc : Nat) : List Char → Nat × List Char
  | [] => (acc, [])
  | c :: rest =>
    if isDigitC c then readDigits (10 * acc + (c.toNat - 48)) rest
    else (acc, c :: rest)

/-- `ss >> n` for an `int` with `skipws` in effect, on non-negative
input: whitespace is skipped and a digit run is consumed; extraction fails
when no digit follows. -/
def readIntSkip (s : List Char) : Option (Nat × List Char) :=
  match readCharSkip s with
  | none => none
  | some (c, rest) =>
    if isDigitC c then some (readDigits (c.toNat - 48) rest) else none

def natCharsAux : Nat → Nat → List Char → List Char
  | 0, _, acc => acc
  | fuel + 1, n, acc =>
    if n < 10 then Char.ofNat (48 + n) :: acc
    else natCharsAux fuel (n / 10) (Char.ofNat (48 + n % 10) :: acc)

/-- Decimal printing of a non-negative integer, as `operator<<` does. -/
def natChars (n : Nat) : List Char := natCharsAux (n + 1) n []

/-- The trailer `fen()` emits after the en-passant field for a rule set
with check counting and points counting and no counting limit
(position.cpp:995-1010): `checksRemaining[WHITE] "+" checksRemaining[BLACK]
" " rule50 " " fullmove " \x7bpointsW pointsB\x7d"`, the full-move number
printed as `1 + (gamePly - (sideToMove == BLACK)) / 2`. -/
def printTrailer (checksW checksB r50 gamePly : Nat) (stm : Color)
    (pw pb : Nat) : List Char :=
  natChars checksW ++ [Char.ofNat 43] ++ natChars checksB ++
  [Char.ofNat 32] ++ natChars r50 ++ [Char.ofNat 32] ++
  natChars (1 + (gamePly - (if stm = Color.black then 1 else 0)) / 2) ++
  [Char.ofNat 32, Char.ofNat 123] ++ natChars pw ++ [Char.ofNat 32] ++
  natChars pb ++ [Char.ofNat 125]

/-- The corresponding slice of `set()` (position.cpp:514-596) for the same
rule set (FEN mode, `check_counting()` and `pointsCounting` enabled, no
counting limit): the nCheck counter (line 514-531, with `putback` when no
`+` follows), `ss >> skipws >> rule50 >> gamePly` and the full-move
conversion (line 563-567), the Lichess-style 3check probe (line 577-587),
whose probing character read is not put back when it is not `+`, and the
points block `ss >> brace >> pointsW >> pointsB >> brace` (line 589-596).
Returns `(checksW, checksB, rule50, gamePly, pointsW, pointsB)`. -/
def parseTrailer (stm : Color) (s : List Char) :
    Option (Nat × Nat × Nat × Nat × Nat × Nat) := do
  let (tok, s1) ← readCharSkip s
  let (cw, cb, s3) ←
    if peekC s1 = some (Char.ofNat 43) then do
      let cw := max (tok.toNat - 48) 0
      let (_, s2a) ← readCharNoSkip s1
      let (t3, s2b) ← readCharNoSkip s2a
      pure (cw, max (t3.toNat - 48) 0, s2b)
    else
      pure (1, 1, tok :: s1)
  let (r50, s4) ← readIntSkip s3
  let (gpRaw, s5) ← readIntSkip s4
  let gamePly := max (2 * (gpRaw - 1)) 0 +
    (if stm = Color.black then 1 else 0)
  let (cw2, cb2, s7) ←
    match readCharSkip s5 with
    | none => pure (cw, cb, s5)
    | some (tokL, s6) =>
      if tokL = Char.ofNat 43 then do
        let (t1, sa) ← readCharSkip s6
        let cwL := max (3 - (t1.toNat - 48)) 0
        let (_, sb) ← readCharSkip sa
        let (t2, sc) ← readCharSkip sb
        pure (cwL, max (3 - (t2.toNat - 48)) 0, sc)
      else pure (cw, cb, s6)
  let (_, s8) ← readCharSkip s7
  let (pw, s9) ← readIntSkip s8
  let (pb, s10) ← readIntSkip s9
  let (_, _) ← readCharSkip s10
  pure (cw2, cb2, r50, gamePly, pw, pb)

/- =====================================================================
Theorems.
===================================================================== -/

/-- The scan finds nothing when no state at an even distance in the scanned
interval carries the current key. -/
theorem repScanAux_no_match (fuel : Nat) (stAt : Nat → RepRec) (k : Key)
    (endP : Nat) :
    ∀ i, i % 2 = 0 →
      (∀ d, i ≤ d → d ≤ endP → d % 2 = 0 → (stAt d).key ≠ k) →
      repScanAux fuel stAt k endP i = 0 := by
  induction fuel with
  | zero => intro i _ _; rfl
  | succ fuel ih =>
    intro i hpar h
    unfold repScanAux
    by_cases hie : i ≤ endP
    · rw [if_pos hie, if_neg (h i le_rfl hie hpar)]
      exact ih (i + 2) (by omega) (fun d hd hde hdp => h d (by omega) hde hdp)
    · rw [if_neg hie]

/-- The scan stops at the first matching even distance and encodes it with
the sign of that record's own repetition field. -/
theorem repScanAux_match (fuel : Nat) (stAt : Nat → RepRec) (k : Key)
    (endP d : Nat) (hde : d ≤ endP) (hdpar : d % 2 = 0)
    (hk : (stAt d).key = k) :
    ∀ i, i % 2 = 0 → i ≤ d → endP < i + 2 * fuel →
      (∀ d2, i ≤ d2 → d2 < d → d2 % 2 = 0 → (stAt d2).key ≠ k) →
      repScanAux fuel stAt k endP i =
        (if (stAt d).repetition ≠ 0 then -(d : Int) else (d : Int)) := by
  induction fuel with
  | zero => intro i _ hid hfuel _; omega
  | succ fuel ih =>
    intro i hipar hid hfuel hmin
    unfold repScanAux
    rw [if_pos (hid.trans hde)]
    by_cases hki : (stAt i).key = k
    · have hieq : i = d := by
        by_contra hne
        exact hmin i le_rfl (lt_of_le_of_ne hid hne) hipar hki
      rw [if_pos hki, hieq]
    · have hlt : i < d := lt_of_le_of_ne hid (fun he => hki (he ▸ hk))
      rw [if_neg hki]
      exact ih (i + 2) (by omega) (by omega) (by omega)
        (fun d2 h1 h2 h3 => hmin d2 (by omega) h2 h3)

/-- Claim C9 (amended): after `do_move`, the repetition field of the new
state record is `0` exactly when no earlier record at an even ply distance
`d` with `4 ≤ d ≤ end` (`end` the reversibility horizon of
position.cpp:2516) carries the same key; and when such records exist, it
equals the smallest such distance `d`, stored negated exactly when that
earlier record's own repetition field is nonzero. (The claim as frozen also
counted matches at distances below 4, which the scan of
position.cpp:2520-2528 never visits; see the counterexample.) -/
theorem C9_repetition_field_encoding (cth : Bool) (r50 pfn : Nat)
    (stAt : Nat → RepRec) :
    (stRepetition cth r50 pfn stAt = 0 ↔
      ∀ d, 4 ≤ d → d ≤ repetitionEnd cth r50 pfn → d % 2 = 0 →
        (stAt d).key ≠ (stAt 0).key) ∧
    (∀ d, 4 ≤ d → d ≤ repetitionEnd cth r50 pfn → d % 2 = 0 →
      (stAt d).key = (stAt 0).key →
      (∀ d2, 4 ≤ d2 → d2 < d → d2 % 2 = 0 → (stAt d2).key ≠ (stAt 0).key) →
      stRepetition cth r50 pfn stAt =
        (if (stAt d).repetition ≠ 0 then -(d : Int) else (d : Int))) := by
  set e := repetitionEnd cth r50 pfn with he
  constructor
  · constructor
    · intro h0 d h4 hde hdpar hkey
      have hex : ∃ n, (4 ≤ n ∧ n ≤ e ∧ n % 2 = 0) ∧ (stAt n).key = (stAt 0).key :=
        ⟨d, ⟨h4, hde, hdpar⟩, hkey⟩
      obtain ⟨⟨hn4, hne, hnpar⟩, hnk⟩ := Nat.find_spec hex
      have hnmin := fun d2 (h2 : d2 < Nat.find hex) => Nat.find_min hex h2
      have hres : stRepetition cth r50 pfn stAt =
          (if (stAt (Nat.find hex)).repetition ≠ 0
            then -((Nat.find hex : Nat) : Int) else ((Nat.find hex : Nat) : Int)) := by
        rw [stRepetition, ← he, if_pos (le_trans hn4 hne)]
        exact repScanAux_match (e + 1) stAt (stAt 0).key e (Nat.find hex) hne hnpar hnk 4
          (by omega) hn4 (by omega)
          (fun d2 h1 h2 h3 hk2 => hnmin d2 h2 ⟨⟨h1, by omega, h3⟩, hk2⟩)
      rw [h0] at hres
      by_cases hz : (stAt (Nat.find hex)).repetition ≠ 0
      · rw [if_pos hz] at hres
        omega
      · rw [if_neg hz] at hres
        omega
    · intro h
      rw [stRepetition, ← he]
      by_cases h4e : 4 ≤ e
      · rw [if_pos h4e]
        exact repScanAux_no_match (e + 1) stAt (stAt 0).key e 4 (by omega)
          (fun d hd hde hdp => h d hd hde hdp)
      · rw [if_neg h4e]
  · intro d h4 hde hdpar hkey hmin
    rw [stRepetition, ← he, if_pos (le_trans h4 hde)]
    exact repScanAux_match (e + 1) stAt (stAt 0).key e d hde hdpar hkey 4
      (by omega) h4 (by omega)
      (fun d2 h1 h2 h3 => hmin d2 h1 h2 h3)

/-- Witness for C9: on a concrete chain whose key recurs four plies back,
the characterization yields repetition distance `+4`. -/
theorem C9_repetition_field_encoding_witness :
    stRepetition false 4 4 repChainW = 4 := by
  have h := (C9_repetition_field_encoding false 4 4 repChainW).2 4
    (by norm_num) (by decide) (by norm_num) (by decide)
    (by intro d2 h1 h2 _; exact absurd h1 (by omega))
  simpa [repChainW] using h

/-- Counterexample to C9 as frozen: on a chain whose current key already
recurs two plies back (inside the reversibility horizon), `do_move` stores
repetition `0`, not the distance `2` the claimed encoding requires. -/
theorem C9_counterexample :
    stRepetition false 4 4 repChainCE = 0 ∧
    (repChainCE 2).key = (repChainCE 0).key ∧
    2 ≤ repetitionEnd false 4 4 := by
  refine ⟨by decide, by decide, by decide⟩

/-- Unfolding equation of `matchCount` inside its range. -/
theorem matchCount_le (stAt : Nat → OptRec) (k : Key) (i i2 : Nat)
    (h : i ≤ i2) :
    matchCount stAt k i i2 =
      (if (stAt i).key = k then 1 else 0) + matchCount stAt k (i + 2) i2 := by
  rw [matchCount, dif_pos h]

/-- `matchCount` vanishes below its range. -/
theorem matchCount_gt (stAt : Nat → OptRec) (k : Key) (i i2 : Nat)
    (h : ¬ i ≤ i2) : matchCount stAt k i i2 = 0 := by
  rw [matchCount, dif_neg h]

/-- Behaviour of the n-fold repetition scan in a configuration without the
perpetual-check, chase and Janggi refinements: the scan reports a draw
exactly at an even distance `i2` carrying the current key for which either
the candidate lies strictly below the search root (`ply > i2`) or the
running match count reaches the threefold threshold. -/
theorem nFoldLoop_spec (cfg : OptCfg) (pos : OptPos) (ply endP : Nat)
    (hch : ∀ d, (pos.stAt d).chased = 0)
    (hnf : cfg.nFoldRule = 3) (hnfv : cfg.nFoldValue = VALUE_DRAW)
    (hmc : cfg.materialCounting = false) :
    ∀ fuel i cnt, endP < i + 2 * fuel →
      (nFoldLoop cfg pos ply endP fuel i cnt false false 0 0 0 = some VALUE_DRAW ∨
       nFoldLoop cfg pos ply endP fuel i cnt false false 0 0 0 = none) ∧
      (nFoldLoop cfg pos ply endP fuel i cnt false false 0 0 0 = some VALUE_DRAW ↔
        ∃ i2, i ≤ i2 ∧ i2 ≤ endP ∧ (i2 - i) % 2 = 0 ∧
          (pos.stAt i2).key = (pos.stAt 0).key ∧
          (ply > i2 ∨ 2 ≤ cnt + matchCount pos.stAt ((pos.stAt 0).key) i i2)) := by
  intro fuel
  induction fuel with
  | zero =>
    intro i cnt hfuel
    refine ⟨Or.inr rfl, ?_⟩
    constructor
    · intro h; exact absurd h (by simp [nFoldLoop])
    · rintro ⟨i2, h1, h2, -⟩; omega
  | succ fuel ih =>
    intro i cnt hfuel
    by_cases hie : i ≤ endP
    · have hjan : janggiStep pos.stAt endP i 0 = Sum.inl 0 := by
        simp [janggiStep]
      have hchT : (if i ≠ pos.pliesFromNull then
          pos.undoMB 0 ((pos.stAt (i - 1)).mv) &&& (pos.stAt i).chased
          else 0) = 0 := by
        simp [hch i]
      by_cases hkey : (pos.stAt i).key = (pos.stAt 0).key
      · by_cases hthr : cnt + 1 + 1 ≥ (if ply > i ∧ (0 : Nat) = 0 ∧
            (0 : Bitboard) = 0 ∧ (0 : Bitboard) = 0 ∧ false = false ∧
            (false && ((pos.stAt i).checkersBB ≠ 0)) = false
            then 2 else cfg.nFoldRule)
        · have hres : nFoldLoop cfg pos ply endP (fuel + 1) i cnt
              false false 0 0 0 = some VALUE_DRAW := by
            rw [nFoldLoop, if_pos hie, hjan]
            simp only [hch i, Nat.and_zero, ite_self, Bool.false_and,
              if_pos hkey]
            rw [if_pos (by simpa using hthr)]
            simp [hnfv, hmc, convert_mate_value, VALUE_DRAW, VALUE_MATE]
          refine ⟨Or.inl hres, hres.symm ▸ ?_⟩
          simp only [true_iff]
          refine ⟨i, le_rfl, hie, by omega, hkey, ?_⟩
          have hcases : ply > i ∨ 3 ≤ cnt + 2 := by
            by_cases hp : ply > i
            · exact Or.inl hp
            · refine Or.inr ?_
              have h2 := hthr
              rw [hnf] at h2
              simpa [hp] using h2
          rcases hcases with h | h
          · exact Or.inl h
          · refine Or.inr ?_
            rw [matchCount_le _ _ _ _ le_rfl, if_pos hkey]
            omega
        · -- match found but threshold not reached: continue with cnt + 1
          have hstep : nFoldLoop cfg pos ply endP (fuel + 1) i cnt
              false false 0 0 0 =
              nFoldLoop cfg pos ply endP fuel (i + 2) (cnt + 1)
                false false 0 0 0 := by
            rw [nFoldLoop, if_pos hie, hjan]
            simp only [hch i, Nat.and_zero, ite_self, Bool.false_and,
              if_pos hkey]
            rw [if_neg (by simpa using hthr)]
            simp [hch (i + 1)]
          have hply : ¬ ply > i ∧ cnt = 0 := by
            rw [hnf] at hthr
            by_cases hp : ply > i
            · exact absurd (by simp [hp] : _) hthr
            · refine ⟨hp, ?_⟩
              by_contra hc
              exact hthr (by simp [hp]; omega)
          obtain ⟨ihEx, ihIff⟩ := ih (i + 2) (cnt + 1) (by omega)
          rw [hstep]
          refine ⟨ihEx, ihIff.trans ?_⟩
          constructor
          · rintro ⟨i2, h1, h2, h3, h4, h5⟩
            refine ⟨i2, by omega, h2, by omega, h4, ?_⟩
            rcases h5 with h5 | h5
            · exact Or.inl h5
            · refine Or.inr ?_
              rw [matchCount_le _ _ _ _ (by omega : i ≤ i2), if_pos hkey]
              omega
          · rintro ⟨i2, h1, h2, h3, h4, h5⟩
            rcases Nat.eq_or_lt_of_le h1 with heq | hlt
            · -- i2 = i cannot satisfy the condition
              exfalso
              subst heq
              rcases h5 with h5 | h5
              · exact hply.1 h5
              · rw [matchCount_le _ _ _ _ le_rfl, if_pos hkey,
                  matchCount_gt _ _ _ _ (by omega)] at h5
                omega
            · refine ⟨i2, by omega, h2, by omega, h4, ?_⟩
              rcases h5 with h5 | h5
              · exact Or.inl h5
              · refine Or.inr ?_
                rw [matchCount_le _ _ _ _ (by omega : i ≤ i2),
                  if_pos hkey] at h5
                omega
      · -- no match at distance i
        have hstep : nFoldLoop cfg pos ply endP (fuel + 1) i cnt
            false false 0 0 0 =
            nFoldLoop cfg pos ply endP fuel (i + 2) cnt
              false false 0 0 0 := by
          rw [nFoldLoop, if_pos hie, hjan]
          simp only [hch i, Nat.and_zero, ite_self, Bool.false_and,
            if_neg hkey]
          simp [hch (i + 1)]
        obtain ⟨ihEx, ihIff⟩ := ih (i + 2) cnt (by omega)
        rw [hstep]
        refine ⟨ihEx, ihIff.trans ?_⟩
        constructor
        · rintro ⟨i2, h1, h2, h3, h4, h5⟩
          refine ⟨i2, by omega, h2, by omega, h4, ?_⟩
          rcases h5 with h5 | h5
          · exact Or.inl h5
          · refine Or.inr ?_
            rw [matchCount_le _ _ _ _ (by omega : i ≤ i2), if_neg hkey]
            omega
        · rintro ⟨i2, h1, h2, h3, h4, h5⟩
          rcases Nat.eq_or_lt_of_le h1 with heq | hlt
          · exact absurd h4 (heq ▸ hkey)
          · refine ⟨i2, by omega, h2, by omega, h4, ?_⟩
            rcases h5 with h5 | h5
            · exact Or.inl h5
            · refine Or.inr ?_
              rw [matchCount_le _ _ _ _ (by omega : i ≤ i2),
                if_neg hkey] at h5
              omega
    · have hres : nFoldLoop cfg pos ply endP (fuel + 1) i cnt
          false false 0 0 0 = none := by
        rw [nFoldLoop, if_neg hie]
      refine ⟨Or.inr hres, hres.symm ▸ ?_⟩
      constructor
      · intro h; cases h
      · rintro ⟨i2, h1, h2, -⟩; omega

/-- Claim C7 (amended): under a threefold-repetition configuration (draw
value, no perpetual-check / chase / Janggi / material-counting refinements,
no n-move, counting or sittuyin rule), `is_optional_game_end` reports an
optional game end, necessarily with a draw value, exactly when some state
an even number `i2` of plies back inside the reversibility horizon carries
the current key and either that occurrence lies strictly after the search
root (`ply > i2` — so a single repetition already ends the game there) or
the scan has seen at least two earlier occurrences, i.e. the third
occurrence is reached. (The claim as frozen required the third occurrence
unconditionally; the `ply > i2` clause of position.cpp:3146 also stops at
the second occurrence, see the counterexample.) -/
theorem C7_threefold_repetition (cfg : OptCfg) (pos : OptPos) (ply : Nat)
    (hch : ∀ d, (pos.stAt d).chased = 0)
    (hnm : cfg.nMoveRule = 0) (hnf : cfg.nFoldRule = 3)
    (hnfv : cfg.nFoldValue = VALUE_DRAW) (hmc : cfg.materialCounting = false)
    (hpci : cfg.perpetualCheckIllegal = false)
    (hmri : cfg.moveRepetitionIllegal = false)
    (hcr : cfg.countingRule = false) (hsp : cfg.sittuyinPromotion = false) :
    (is_optional_game_end cfg pos ply = some VALUE_DRAW ∨
     is_optional_game_end cfg pos ply = none) ∧
    (is_optional_game_end cfg pos ply = some VALUE_DRAW ↔
      ∃ i2, 4 ≤ i2 ∧
        i2 ≤ repetitionEnd cfg.capturesToHand pos.rule50 pos.pliesFromNull ∧
        i2 % 2 = 0 ∧ (pos.stAt i2).key = (pos.stAt 0).key ∧
        (ply > i2 ∨
          2 ≤ matchCount pos.stAt ((pos.stAt 0).key) 4 i2)) := by
  set endP := repetitionEnd cfg.capturesToHand pos.rule50 pos.pliesFromNull
    with hendP
  have hnmove : is_optional_game_end cfg pos ply =
      (if cfg.nFoldRule ≠ 0 then
        (if endP ≥ 4 then
          nFoldLoop cfg pos ply endP (endP + 1) 4 0
            (cfg.perpetualCheckIllegal && ((pos.stAt 0).checkersBB ≠ 0) &&
              ((pos.stAt 2).checkersBB ≠ 0))
            (cfg.perpetualCheckIllegal && ((pos.stAt 1).checkersBB ≠ 0) &&
              ((pos.stAt 3).checkersBB ≠ 0))
            (pos.undoMB (pos.stAt 0).chased ((pos.stAt 1).mv) &&&
              (pos.stAt 2).chased)
            (pos.undoMB (pos.stAt 1).chased ((pos.stAt 2).mv) &&&
              (pos.stAt 3).chased)
            (if cfg.moveRepetitionIllegal ∧
                type_of_move ((pos.stAt 0).mv) = MoveT.NORMAL ∧
                (pos.stAt 1).checkersBB = 0 ∧ (pos.stAt 3).checkersBB = 0 ∧
                pos.boardBbHit then
              (if (pos.stAt 2).mv = some (reverse_move_opt ((pos.stAt 0).mv))
                then 2 else if is_pass ((pos.stAt 2).mv) then 1 else 0)
            else 0)
        else none)
      else none) := by
    rw [is_optional_game_end]
    simp only [hnm, hcr, hsp, hendP]
    simp only [ne_eq, not_true_eq_false, false_and, if_false, ite_false]
    cases hx : (if cfg.nFoldRule ≠ 0 then
        (if endP ≥ 4 then
          nFoldLoop cfg pos ply endP (endP + 1) 4 0
            (cfg.perpetualCheckIllegal && ((pos.stAt 0).checkersBB ≠ 0) &&
              ((pos.stAt 2).checkersBB ≠ 0))
            (cfg.perpetualCheckIllegal && ((pos.stAt 1).checkersBB ≠ 0) &&
              ((pos.stAt 3).checkersBB ≠ 0))
            (pos.undoMB (pos.stAt 0).chased ((pos.stAt 1).mv) &&&
              (pos.stAt 2).chased)
            (pos.undoMB (pos.stAt 1).chased ((pos.stAt 2).mv) &&&
              (pos.stAt 3).chased)
            (if cfg.moveRepetitionIllegal ∧
                type_of_move ((pos.stAt 0).mv) = MoveT.NORMAL ∧
                (pos.stAt 1).checkersBB = 0 ∧ (pos.stAt 3).checkersBB = 0 ∧
                pos.boardBbHit then
              (if (pos.stAt 2).mv = some (reverse_move_opt ((pos.stAt 0).mv))
                then 2 else if is_pass ((pos.stAt 2).mv) then 1 else 0)
            else 0)
        else none)
      else none) with
    | none => simp
    | some v => simp
  rw [hnmove]
  simp only [hnf, hpci, hmri, hch 2, hch 3, Nat.and_zero, Bool.false_and,
    false_and, if_false, ite_false]
  by_cases h4 : endP ≥ 4
  · rw [if_pos (by norm_num), if_pos h4]
    obtain ⟨hEx, hIff⟩ := nFoldLoop_spec cfg pos ply endP hch hnf hnfv hmc
      (endP + 1) 4 0 (by omega)
    refine ⟨hEx, hIff.trans ?_⟩
    constructor
    · rintro ⟨i2, h1, h2, h3, h5, h6⟩
      exact ⟨i2, h1, h2, by omega, h5, by simpa using h6⟩
    · rintro ⟨i2, h1, h2, h3, h5, h6⟩
      exact ⟨i2, h1, h2, by omega, h5, by simpa using h6⟩
  · rw [if_pos (by norm_num), if_neg h4]
    refine ⟨Or.inr rfl, ?_⟩
    constructor
    · intro h; cases h
    · rintro ⟨i2, h1, h2, -⟩; omega

/-- Witness for C7: a position whose key occurred four and eight plies
back (the third occurrence, in a 8-ply reversible window, all at or
before the root) is reported as a draw by repetition. -/
theorem C7_threefold_repetition_witness :
    is_optional_game_end cfg3fold (optPosOf chain3W 8 8) 0 = some VALUE_DRAW := by
  have h := (C7_threefold_repetition cfg3fold (optPosOf chain3W 8 8) 0
    (by intro d; rfl) rfl rfl rfl rfl rfl rfl rfl rfl).2
  rw [h]
  have hmc2 : matchCount (optPosOf chain3W 8 8).stAt
      (((optPosOf chain3W 8 8).stAt 0).key) 4 8 = 2 := by
    rw [matchCount_le _ _ _ _ (by omega), matchCount_le _ _ _ _ (by omega),
      matchCount_le _ _ _ _ (by omega), matchCount_gt _ _ _ _ (by omega)]
    norm_num [optPosOf, chain3W]
  exact ⟨8, by decide, by decide, by decide, by decide,
    Or.inr (by rw [hmc2])⟩

/-- Counterexample to C7 as frozen: with the same threefold configuration,
a position repeated only once (four plies back) is already reported as an
optional draw when the repetition lies strictly after the search root
(`ply = 5 > 4`), i.e. before any third occurrence exists. -/
theorem C7_counterexample :
    is_optional_game_end cfg3fold (optPosOf chain2CE 4 4) 5 = some VALUE_DRAW ∧
    cfg3fold.nFoldRule = 3 ∧
    (chain2CE 4).key = (chain2CE 0).key ∧
    (∀ d, 1 ≤ d → d ≤ 4 → d ≠ 4 → (chain2CE d).key ≠ (chain2CE 0).key) := by
  refine ⟨by decide, rfl, by decide, by decide⟩

/-- Flipping a color twice is the identity. -/
theorem Color.flip_flip (c : Color) : c.flip.flip = c := by
  cases c <;> rfl

/-- Two distinct colors are each other's flip. -/
theorem Color.eq_flip_of_ne {c d : Color} (h : c ≠ d) : c = d.flip := by
  cases c <;> cases d <;> first
    | rfl
    | exact absurd rfl h

/-- Claim C8 (amended): under a configuration whose extinction piece types
are exactly the king, with `extinctionPieceCount = 0`, the default
opponent threshold and claim flag, and the extinction value configured as
a loss for the extinct side (`-VALUE_MATE`), a position in which one side
has lost its last king while the other still has one is adjudicated
immediately with the mate-ply value oriented against the kingless side.
(The claim as frozen did not fix the sign of the configured extinction
value; with a win value, the same capture is adjudicated in favor of the
kingless side, see the counterexample.) -/
theorem C8_extinction_adjudication (cfg : ImmCfg) (stm loser : Color)
    (cwh : Color → PieceType → Int) (ply : Nat) (rest : Option Int)
    (hv : cfg.extinctionValue = some (-VALUE_MATE))
    (hpr : cfg.extinctionPseudoRoyal = false)
    (hts : cfg.extinctionPieceTypes = [KING])
    (hc : cfg.extinctionPieceCount = 0)
    (hoc : cfg.extinctionOpponentPieceCount = 0)
    (hcl : cfg.extinctionClaim = false)
    (hl : cwh loser KING = 0)
    (hw : 1 ≤ cwh loser.flip KING) :
    is_immediate_game_end cfg stm cwh ply rest =
      some (if loser = stm then mated_in ply else mate_in ply) := by
  have hguard : cfg.extinctionValue ≠ none ∧
      (¬cfg.extinctionPseudoRoyal ∨ cfg.blastOnCapture) := by
    rw [hv, hpr]; exact ⟨by simp, Or.inl (by simp)⟩
  have hval : extinction_value_ply cfg ply = mated_in ply := by
    rw [extinction_value_ply, hv, Option.getD_some, convert_mate_value,
      if_neg (by norm_num [VALUE_MATE]), if_pos rfl]
  have hnegval : -extinction_value_ply cfg ply = mate_in ply := by
    rw [hval, mated_in, mate_in]; ring
  have hfne : stm.flip ≠ stm := by cases stm <;> simp [Color.flip]
  by_cases hls : loser = stm
  · -- the side to move is the kingless one: the first color scanned
    -- (the opponent) does not trigger, the second (the mover) does.
    rw [hls] at hl hw
    have h1 : extinctionScanTypes cfg stm cwh ply stm.flip [KING] = none := by
      simp only [extinctionScanTypes, hcl, hc, hoc, Bool.false_eq_true,
        false_and, if_false, add_zero]
      split
      · next hcon => exact absurd hcon.1 (by omega)
      · rfl
    have h2 : extinctionScanTypes cfg stm cwh ply stm [KING] =
        some (extinction_value_ply cfg ply) := by
      simp only [extinctionScanTypes, hcl, hc, hoc, Bool.false_eq_true,
        false_and, if_false, add_zero]
      rw [if_pos ⟨by omega, by omega⟩]
      simp
    rw [is_immediate_game_end, hts, if_pos hguard, h1, h2, hval, if_pos hls]
  · -- the opponent of the side to move is kingless: the first color
    -- scanned triggers at once.
    have hlf : loser = stm.flip := Color.eq_flip_of_ne hls
    rw [hlf] at hl hw
    rw [Color.flip_flip] at hw
    have h1 : extinctionScanTypes cfg stm cwh ply stm.flip [KING] =
        some (-extinction_value_ply cfg ply) := by
      simp only [extinctionScanTypes, hcl, hc, hoc, Bool.false_eq_true,
        false_and, if_false, add_zero]
      rw [if_pos ⟨by omega, by rw [Color.flip_flip]; omega⟩, if_neg hfne]
    rw [is_immediate_game_end, hts, if_pos hguard, h1, hnegval, if_neg hls]

/-- Witness for C8: white to move, black's last king captured; the
adjudication returns a mate score for white. -/
theorem C8_extinction_adjudication_witness :
    is_immediate_game_end cfgExtW Color.white cwhKingOnlyWhite 3 none =
      some (mate_in 3) := by
  have h := C8_extinction_adjudication cfgExtW Color.white Color.black
    cwhKingOnlyWhite 3 none rfl rfl rfl rfl rfl rfl (by decide) (by decide)
  simpa using h

/-- Counterexample to C8 as frozen: with a win-valued extinction rule
(`extinctionValue = VALUE_MATE`, as in giveaway-style variants) and the
king as the only extinction type with count 0, capturing black's last king
is adjudicated as a loss for white, the side still possessing a king. -/
theorem C8_counterexample :
    is_immediate_game_end cfgExtCE Color.white cwhKingOnlyWhite 3 none =
      some (-mate_in 3) ∧
    cwhKingOnlyWhite Color.white KING = 1 ∧
    cwhKingOnlyWhite Color.black KING = 0 ∧
    -mate_in 3 < 0 := by
  refine ⟨by decide, by decide, by decide, by decide⟩

/-- One piece branch of the exchange loop: with the continuation monotone
in the right parity sense, the branch preserves the two implications
between a smaller and a larger running swap value. -/
theorem seeBranchStep (rec : Color → Bitboard → Bitboard → Int → Bool → Bool)
    (hA : ∀ c occ att (t2 t : Int), t2 ≤ t →
      (rec c occ att t true = true → rec c occ att t2 true = true) ∧
      (rec c occ att t2 false = true → rec c occ att t false = true))
    (c : Color) (occ2 att2 : Bitboard) (a s s2 : Int) (h : s2 ≤ s) :
    ((if a - s < bToI false then (false : Bool)
        else rec c occ2 att2 (a - s) false) = true →
     (if a - s2 < bToI false then (false : Bool)
        else rec c occ2 att2 (a - s2) false) = true) ∧
    ((if a - s2 < bToI true then (true : Bool)
        else rec c occ2 att2 (a - s2) true) = true →
     (if a - s < bToI true then (true : Bool)
        else rec c occ2 att2 (a - s) true) = true) := by
  constructor
  · intro hres
    by_cases h1 : a - s < bToI false
    · rw [if_pos h1] at hres
      cases hres
    · rw [if_neg h1] at hres
      have h2 : ¬ a - s2 < bToI false := by
        simp only [bToI, if_false] at h1 ⊢
        omega
      rw [if_neg h2]
      exact (hA c occ2 att2 (a - s) (a - s2) (by omega)).2 hres
  · intro hres
    by_cases h1 : a - s < bToI true
    · rw [if_pos h1]
    · rw [if_neg h1]
      have h2 : ¬ a - s2 < bToI true := by
        simp only [bToI, if_true] at h1 ⊢
        omega
      rw [if_neg h2] at hres
      exact (hA c occ2 att2 (a - s) (a - s2) (by omega)).1 hres

/-- The exchange stage is antitone in the swap value when entered with
`res = true` and monotone when entered with `res = false`. -/
theorem seeStage_mono (P : SPos) (tSq : Square)
    (rec : Color → Bitboard → Bitboard → Int → Bool → Bool)
    (hA : ∀ c occ att (t2 t : Int), t2 ≤ t →
      (rec c occ att t true = true → rec c occ att t2 true = true) ∧
      (rec c occ att t2 false = true → rec c occ att t false = true))
    (stm : Color) (occ attH sa2 : Bitboard) (s s2 : Int) (h : s2 ≤ s) :
    (seeStage P tSq rec stm occ attH sa2 s true = true →
     seeStage P tSq rec stm occ attH sa2 s2 true = true) ∧
    (seeStage P tSq rec stm occ attH sa2 s2 false = true →
     seeStage P tSq rec stm occ attH sa2 s false = true) := by
  by_cases h0 : sa2 = 0
  · simp only [seeStage, if_pos h0]
    exact ⟨fun x => x, fun x => x⟩
  constructor
  · intro hres
    simp only [seeStage, if_neg h0, Bool.not_true] at hres ⊢
    by_cases hbP : sa2 &&& P.piecesT PAWN ≠ 0
    · rw [if_pos hbP] at hres ⊢
      exact (seeBranchStep rec hA stm _ _ PawnValueMg s s2 h).1 hres
    rw [if_neg hbP] at hres ⊢
    by_cases hbN : sa2 &&& P.piecesT KNIGHT ≠ 0
    · rw [if_pos hbN] at hres ⊢
      exact (seeBranchStep rec hA stm _ _ KnightValueMg s s2 h).1 hres
    rw [if_neg hbN] at hres ⊢
    by_cases hbB : sa2 &&& P.piecesT BISHOP ≠ 0
    · rw [if_pos hbB] at hres ⊢
      exact (seeBranchStep rec hA stm _ _ BishopValueMg s s2 h).1 hres
    rw [if_neg hbB] at hres ⊢
    by_cases hbR : sa2 &&& P.piecesT ROOK ≠ 0
    · rw [if_pos hbR] at hres ⊢
      exact (seeBranchStep rec hA stm _ _ RookValueMg s s2 h).1 hres
    rw [if_neg hbR] at hres ⊢
    by_cases hbQ : sa2 &&& P.piecesT QUEEN ≠ 0
    · rw [if_pos hbQ] at hres ⊢
      exact (seeBranchStep rec hA stm _ _ QueenValueMg s s2 h).1 hres
    rw [if_neg hbQ] at hres ⊢
    by_cases hbF : andNot sa2 (P.piecesT KING) ≠ 0
    · rw [if_pos hbF] at hres ⊢
      exact (seeBranchStep rec hA stm _ _
        (pieceValOpt P (P.board (lsbIdx (andNot sa2 (P.piecesT KING)))))
        s s2 h).1 hres
    rw [if_neg hbF] at hres ⊢
    exact hres
  · intro hres
    simp only [seeStage, if_neg h0, Bool.not_false] at hres ⊢
    by_cases hbP : sa2 &&& P.piecesT PAWN ≠ 0
    · rw [if_pos hbP] at hres ⊢
      exact (seeBranchStep rec hA stm _ _ PawnValueMg s s2 h).2 hres
    rw [if_neg hbP] at hres ⊢
    by_cases hbN : sa2 &&& P.piecesT KNIGHT ≠ 0
    · rw [if_pos hbN] at hres ⊢
      exact (seeBranchStep rec hA stm _ _ KnightValueMg s s2 h).2 hres
    rw [if_neg hbN] at hres ⊢
    by_cases hbB : sa2 &&& P.piecesT BISHOP ≠ 0
    · rw [if_pos hbB] at hres ⊢
      exact (seeBranchStep rec hA stm _ _ BishopValueMg s s2 h).2 hres
    rw [if_neg hbB] at hres ⊢
    by_cases hbR : sa2 &&& P.piecesT ROOK ≠ 0
    · rw [if_pos hbR] at hres ⊢
      exact (seeBranchStep rec hA stm _ _ RookValueMg s s2 h).2 hres
    rw [if_neg hbR] at hres ⊢
    by_cases hbQ : sa2 &&& P.piecesT QUEEN ≠ 0
    · rw [if_pos hbQ] at hres ⊢
      exact (seeBranchStep rec hA stm _ _ QueenValueMg s s2 h).2 hres
    rw [if_neg hbQ] at hres ⊢
    by_cases hbF : andNot sa2 (P.piecesT KING) ≠ 0
    · rw [if_pos hbF] at hres ⊢
      exact (seeBranchStep rec hA stm _ _
        (pieceValOpt P (P.board (lsbIdx (andNot sa2 (P.piecesT KING)))))
        s s2 h).2 hres
    rw [if_neg hbF] at hres ⊢
    exact hres

/-- One loop iteration inherits the parity-monotonicity of its
continuation. -/
theorem seeLoopBody_mono (P : SPos) (tSq : Square)
    (rec : Color → Bitboard → Bitboard → Int → Bool → Bool)
    (hA : ∀ c occ att (t2 t : Int), t2 ≤ t →
      (rec c occ att t true = true → rec c occ att t2 true = true) ∧
      (rec c occ att t2 false = true → rec c occ att t false = true))
    (stm0 : Color) (occ att : Bitboard) (s s2 : Int) (h : s2 ≤ s) :
    (seeLoopBody P tSq rec stm0 occ att s true = true →
     seeLoopBody P tSq rec stm0 occ att s2 true = true) ∧
    (seeLoopBody P tSq rec stm0 occ att s2 false = true →
     seeLoopBody P tSq rec stm0 occ att s false = true) := by
  by_cases h0 : att &&& occ &&& P.piecesC stm0.flip = 0
  · simp only [seeLoopBody, if_pos h0]
    exact ⟨fun x => x, fun x => x⟩
  · simp only [seeLoopBody, if_neg h0]
    exact seeStage_mono P tSq rec hA _ _ _ _ s s2 h

/-- The fuelled exchange loop is antitone in the swap value when entered
with `res = true` and monotone when entered with `res = false` (the
attacker selection, occupancy updates and x-ray additions do not depend on
the swap value; only the null-window break tests do). -/
theorem seeLoop_mono (P : SPos) (tSq : Square) :
    ∀ (fuel : Nat) (c : Color) (occ att : Bitboard) (s s2 : Int),
      s2 ≤ s →
      (seeLoop P tSq fuel c occ att s true = true →
        seeLoop P tSq fuel c occ att s2 true = true) ∧
      (seeLoop P tSq fuel c occ att s2 false = true →
        seeLoop P tSq fuel c occ att s false = true) := by
  intro fuel
  induction fuel with
  | zero => intro c occ att s s2 h; exact ⟨fun x => x, fun x => x⟩
  | succ fuel ih =>
    intro c occ att s s2 h
    simp only [seeLoop]
    exact seeLoopBody_mono P tSq (seeLoop P tSq fuel)
      (fun c2 o2 a2 t2 t ht => ih c2 o2 a2 t t2 ht) c occ att s s2 h

/-- Claim C5: `see_ge` is antitone in its threshold: a move meeting a
static-exchange threshold also meets every smaller threshold, across the
special-move, check-counting, blast, extinction, unreliable-value and
exchange-loop branches. -/
theorem C5_see_ge_threshold_monotone (P : SPos) (m : Move) (v v2 : Int)
    (hle : v2 ≤ v) (htrue : see_ge P m v = true) : see_ge P m v2 = true := by
  unfold see_ge at htrue ⊢
  by_cases c1 : m.mtype ≠ MoveT.NORMAL ∧ m.mtype ≠ MoveT.DROP ∧
      m.mtype ≠ MoveT.PIECE_PROMOTION
  · rw [if_pos c1] at htrue ⊢
    simp only [VALUE_ZERO, ge_iff_le, decide_eq_true_eq] at htrue ⊢
    omega
  rw [if_neg c1] at htrue ⊢
  by_cases c2 : P.checkCounting ∧
      color_of_opt (movedPiece P m) = some P.sideToMove ∧ P.givesCheck m
  · rw [if_pos c2]
  rw [if_neg c2] at htrue ⊢
  by_cases c3 : P.blastOnCapture = true
  · rw [if_pos c3] at htrue ⊢
    simp only [ge_iff_le, decide_eq_true_eq] at htrue ⊢
    omega
  rw [if_neg c3] at htrue ⊢
  by_cases c4 : P.extinctionValueS ≠ none ∧ P.board m.toSq ≠ none ∧
      ((type_of_opt (P.board m.toSq) ∈ P.extinctionTypesList ∧
        (pieceCountOpt P (P.board m.toSq) : Int) = P.extinctionPieceCountS + 1) ∨
       (ALL_PIECES ∈ P.extinctionTypesList ∧
        (P.pieceCount P.sideToMove.flip ALL_PIECES : Int) =
          P.extinctionPieceCountS + 1))
  · rw [if_pos c4] at htrue ⊢
    exact htrue
  rw [if_neg c4] at htrue ⊢
  by_cases c5 : P.mustCapture ∨ ¬P.checkingPermitted ∨ m.gating ∨
      P.countT CLOBBER_PIECE = P.countT ALL_PIECES
  · rw [if_pos c5] at htrue ⊢
    simp only [VALUE_ZERO, ge_iff_le, decide_eq_true_eq] at htrue ⊢
    omega
  rw [if_neg c5] at htrue ⊢
  by_cases s1v : pieceValOpt P (P.board m.toSq) - v < 0
  · rw [if_pos s1v] at htrue
    cases htrue
  rw [if_neg s1v] at htrue
  rw [if_neg (show ¬ pieceValOpt P (P.board m.toSq) - v2 < 0 by omega)]
  by_cases s2v2 : pieceValOpt P (movedPiece P m) -
      (pieceValOpt P (P.board m.toSq) - v2) ≤ 0
  · rw [if_pos s2v2]
  rw [if_neg s2v2]
  by_cases s2v : pieceValOpt P (movedPiece P m) -
      (pieceValOpt P (P.board m.toSq) - v) ≤ 0
  · exfalso
    omega
  rw [if_neg s2v] at htrue
  by_cases cp : type_of_opt (movedPiece P m) ∈ P.petrifyOnCaptureList ∧
      captureM P m
  · rw [if_pos cp] at htrue
    cases htrue
  rw [if_neg cp] at htrue ⊢
  exact (seeLoop_mono P m.toSq _ _ _ _
    (pieceValOpt P (movedPiece P m) - (pieceValOpt P (P.board m.toSq) - v))
    (pieceValOpt P (movedPiece P m) - (pieceValOpt P (P.board m.toSq) - v2))
    (by omega)).1 htrue

/-- Witness for C5: a winning pawn capture meets threshold 1, hence also
threshold 0. -/
theorem C5_see_ge_threshold_monotone_witness : see_ge seePosW mW 0 = true :=
  C5_see_ge_threshold_monotone seePosW mW 1 0 (by norm_num) (by decide)

/-- Claim C10 (amended): for moves of type `NORMAL`, `DROP` or
`PIECE_PROMOTION` in a check-counting variant, a checking move by the side
to move passes `see_ge` for every threshold (the check-counting branch of
position.cpp:2921-2923 returns true before any material is considered).
The claim as frozen covered every move type, but the special-move early
return of position.cpp:2916-2917 precedes the check-counting branch; see
the counterexample. -/
theorem C10_see_ge_check_counting (P : SPos) (m : Move) (v : Int)
    (ht : m.mtype = MoveT.NORMAL ∨ m.mtype = MoveT.DROP ∨
      m.mtype = MoveT.PIECE_PROMOTION)
    (hcc : P.checkCounting = true)
    (hcol : color_of_opt (movedPiece P m) = some P.sideToMove)
    (hgc : P.givesCheck m = true) :
    see_ge P m v = true := by
  unfold see_ge
  rw [if_neg (by rcases ht with h | h | h <;> simp [h])]
  rw [if_pos ⟨hcc, hcol, hgc⟩]

/-- Witness for C10: a checking normal move passes an arbitrary positive
threshold in a check-counting variant. -/
theorem C10_see_ge_check_counting_witness : see_ge P10w m10 5 = true :=
  C10_see_ge_check_counting P10w m10 5 (Or.inl rfl) rfl (by decide) rfl

/-- Counterexample to C10 as frozen: in the same check-counting variant, a
checking promotion move (type `PROMOTION`) fails `see_ge` at threshold 1,
because the special-move early return fires before the check-counting
branch. -/
theorem C10_counterexample :
    see_ge P10w mProm 1 = false ∧
    P10w.checkCounting = true ∧
    color_of_opt (movedPiece P10w mProm) = some P10w.sideToMove ∧
    P10w.givesCheck mProm = true := by
  refine ⟨by decide, rfl, by decide, rfl⟩

/- Bitwise algebra helpers for the attacker computations. -/

theorem natOrComm (a b : Nat) : a ||| b = b ||| a := by
  apply Nat.eq_of_testBit_eq; intro i
  simp [Nat.testBit_or, Bool.or_comm]

theorem natOrAssoc (a b c : Nat) : a ||| b ||| c = a ||| (b ||| c) := by
  apply Nat.eq_of_testBit_eq; intro i
  simp [Nat.testBit_or, Bool.or_assoc]

theorem natOrLeftComm (a b c : Nat) : a ||| (b ||| c) = b ||| (a ||| c) := by
  apply Nat.eq_of_testBit_eq; intro i
  simp [Nat.testBit_or]
  cases a.testBit i <;> cases b.testBit i <;> cases c.testBit i <;> rfl

theorem natAndComm (a b : Nat) : a &&& b = b &&& a := by
  apply Nat.eq_of_testBit_eq; intro i
  simp [Nat.testBit_and, Bool.and_comm]

theorem natAndAssoc (a b c : Nat) : a &&& b &&& c = a &&& (b &&& c) := by
  apply Nat.eq_of_testBit_eq; intro i
  simp [Nat.testBit_and, Bool.and_assoc]

theorem natAndLeftComm (a b c : Nat) : a &&& (b &&& c) = b &&& (a &&& c) := by
  apply Nat.eq_of_testBit_eq; intro i
  simp [Nat.testBit_and]
  cases a.testBit i <;> cases b.testBit i <;> cases c.testBit i <;> rfl

theorem natAndOrL (a b c : Nat) : a &&& (b ||| c) = a &&& b ||| a &&& c := by
  apply Nat.eq_of_testBit_eq; intro i
  simp [Nat.testBit_and, Nat.testBit_or, Bool.and_or_distrib_left]

theorem natAndOrR (a b c : Nat) : (a ||| b) &&& c = a &&& c ||| b &&& c := by
  apply Nat.eq_of_testBit_eq; intro i
  simp [Nat.testBit_and, Nat.testBit_or, Bool.and_or_distrib_right]

theorem andNot_zero (a : Nat) : andNot a 0 = a := by
  simp [andNot]

theorem piecesCT2_or (P : SPos) (c : Color) (a b : PieceType) :
    P.piecesCT2 c a b = P.piecesCT c a ||| P.piecesCT c b := by
  simp [SPos.piecesCT2, SPos.piecesCT, natAndOrL]

theorem piecesCT3_or (P : SPos) (c : Color) (a b d : PieceType) :
    P.piecesCT3 c a b d =
      P.piecesCT c a ||| P.piecesCT c b ||| P.piecesCT c d := by
  simp [SPos.piecesCT3, SPos.piecesCT, natAndOrL]

/-- Bit-level reading of the per-type attacker union. -/
theorem stdUnion_testBit (P : SPos) (c : Color) (s : Square) (occ : Bitboard)
    (i : Nat) :
    ∀ l : List PieceType, (stdUnion P c s occ l).testBit i =
      l.any (fun pt => (stdTerm P c s occ pt).testBit i) := by
  intro l
  induction l with
  | nil => simp [stdUnion]
  | cons pt rest ih => simp [stdUnion, Nat.testBit_or, ih]

/-- Types with no pieces on the board contribute nothing. -/
theorem stdTerm_zero (P : SPos) (c : Color) (s : Square) (occ : Bitboard)
    (pt : PieceType) (h : P.byTypeBB pt = 0) : stdTerm P c s occ pt = 0 := by
  rw [stdTerm, SPos.piecesCT, h, Nat.and_zero, Nat.and_zero]

/-- The union over a sublist equals the union over the full list when the
missing types contribute nothing. -/
theorem stdUnion_ext (P : SPos) (c : Color) (s : Square) (occ : Bitboard)
    (l L : List PieceType) (hsub : ∀ pt ∈ l, pt ∈ L)
    (hz : ∀ pt ∈ L, pt ∉ l → stdTerm P c s occ pt = 0) :
    stdUnion P c s occ l = stdUnion P c s occ L := by
  apply Nat.eq_of_testBit_eq
  intro i
  rw [stdUnion_testBit, stdUnion_testBit]
  have h : (l.any fun pt => (stdTerm P c s occ pt).testBit i) = true ↔
      (L.any fun pt => (stdTerm P c s occ pt).testBit i) = true := by
    rw [List.any_eq_true, List.any_eq_true]
    constructor
    · rintro ⟨pt, hin, hb⟩
      exact ⟨pt, hsub pt hin, hb⟩
    · rintro ⟨pt, hin, hb⟩
      by_cases hmem : pt ∈ l
      · exact ⟨pt, hmem, hb⟩
      · rw [hz pt hin hmem] at hb
        simp at hb
  cases hl2 : (l.any fun pt => (stdTerm P c s occ pt).testBit i) <;>
    cases hL2 : (L.any fun pt => (stdTerm P c s occ pt).testBit i) <;> simp_all

/-- Under standard-table agreement, a non-cannon, non-asymmetrical type's
contribution to the general loop is the standard per-type term. -/
theorem attackerContribution_std (P : SPos) (c : Color) (s : Square)
    (occ jc : Bitboard) (pt : PieceType)
    (hbb : bbTest (P.boardBbCP c pt) s = true)
    (hmv : (if pt = KING then P.kingTypeC else pt) = pt)
    (hasym : P.asymRider pt = false)
    (hjc : pt ≠ JANGGI_CANNON)
    (htab : P.attacksBbC c.flip pt s occ = stdTable P c s occ pt) :
    attackerContribution P s occ c jc pt = stdTerm P c s occ pt := by
  rw [attackerContribution, if_pos hbb]
  simp only [hmv]
  rw [if_neg (by rw [hasym]; exact Bool.false_ne_true), if_neg hjc, htab,
    stdTerm]

/-- The general loop over a list of types is the union of the per-type
standard terms when every element's contribution is standard. -/
theorem attackersLoop_congr (P : SPos) (s : Square) (occ : Bitboard)
    (c : Color) (jc : Bitboard) :
    ∀ l : List PieceType,
      (∀ pt ∈ l, attackerContribution P s occ c jc pt = stdTerm P c s occ pt) →
      attackersLoop P s occ c jc l = stdUnion P c s occ l := by
  intro l
  induction l with
  | nil => intro _; rfl
  | cons pt rest ih =>
    intro h
    simp only [attackersLoop, stdUnion]
    rw [h pt (List.mem_cons_self pt rest),
      ih (fun q hq => h q (List.mem_cons_of_mem pt hq))]

/-- The general attacker computation reduces to the standard union over a
covering type list in a chess-like rule set (no Janggi palace, no soldiers,
no asymmetrical riders, king moving as king, table agreement). -/
theorem attackersGeneral_eq_stdUnion (P : SPos) (c : Color) (s : Square)
    (occ jc : Bitboard) (L : List PieceType)
    (hk : P.kingTypeC = KING)
    (hdiag : P.diagonalLines = 0)
    (hasym : ∀ q, P.asymRider q = false)
    (hbb : ∀ pt, bbTest (P.boardBbCP c pt) s = true)
    (hjcL : JANGGI_CANNON ∉ L)
    (hsoL : SOLDIER ∉ L)
    (hallL : ALL_PIECES ∉ L)
    (hsub : ∀ pt ∈ P.pieceTypesList, pt ∈ L)
    (hzero : ∀ pt, pt ≠ ALL_PIECES → pt ∉ P.pieceTypesList → P.byTypeBB pt = 0)
    (htab : ∀ pt ∈ L, P.attacksBbC c.flip pt s occ = stdTable P c s occ pt) :
    attackersGeneral P s occ c jc = stdUnion P c s occ L := by
  have hcontrib : ∀ pt ∈ P.pieceTypesList,
      attackerContribution P s occ c jc pt = stdTerm P c s occ pt := by
    intro pt hpt
    have hmem : pt ∈ L := hsub pt hpt
    have hmv : (if pt = KING then P.kingTypeC else pt) = pt := by
      by_cases hpk : pt = KING
      · rw [if_pos hpk, hk]; exact hpk.symm
      · rw [if_neg hpk]
    exact attackerContribution_std P c s occ jc pt (hbb pt) hmv (hasym pt)
      (fun h => hjcL (h ▸ hmem)) (htab pt hmem)
  have hloop : attackersLoop P s occ c jc P.pieceTypesList
      = stdUnion P c s occ P.pieceTypesList :=
    attackersLoop_congr P s occ c jc P.pieceTypesList hcontrib
  have hext : stdUnion P c s occ P.pieceTypesList = stdUnion P c s occ L :=
    stdUnion_ext P c s occ P.pieceTypesList L hsub
      (fun pt hptL hptl =>
        stdTerm_zero P c s occ pt
          (hzero pt (fun h0 => hallL (h0 ▸ hptL)) hptl))
  have hsz : P.piecesT SOLDIER = 0 := by
    rw [SPos.piecesT]
    exact hzero SOLDIER (by decide) (fun h => hsoL (hsub _ h))
  have hd : bbTest P.diagonalLines s = false := by
    rw [hdiag]
    simp [bbTest, Nat.zero_and]
  rw [attackersGeneral]
  simp only [hloop, hext, hd, Bool.false_eq_true, if_false, hsz, Nat.and_zero]
  rw [if_neg (by rintro ⟨h0, _⟩; exact h0 rfl)]

/-- The `fastAttacks` expression is the standard union over the chess-like
types once the pawn-cannot-check zone is empty. -/
theorem attackers_to_fast1 (P : SPos) (c : Color) (s : Square)
    (occ jc : Bitboard) (hfa : P.fastAttacks = true)
    (hzone : P.pawnCannotCheckZone c = 0) :
    attackers_to P s occ c jc = stdUnion P c s occ chessLikeTypes := by
  rw [attackers_to, if_pos hfa, hzone, andNot_zero]
  simp only [stdUnion, chessLikeTypes, stdTerm, stdTable, PAWN, KNIGHT,
    BISHOP, ROOK, QUEEN, ARCHBISHOP, CHANCELLOR, COMMONER, KING,
    BREAKTHROUGH_PIECE, GOLD, DRAGON, DRAGON_HORSE, LANCE, FERS, WAZIR,
    SILVER, SHOGI_KNIGHT, SHOGI_PAWN]
  simp only [Nat.reduceEqDiff, reduceIte, Nat.or_zero]
  simp only [piecesCT2_or, piecesCT3_or, natAndOrL, natAndOrR]
  generalize P.pawnAttacksBb c.flip s = pA
  generalize P.pseudoT 2 s = nT
  generalize P.attacksBbT 4 s occ = rT
  generalize P.attacksBbT 3 s occ = bT
  generalize P.pseudoT 30 s = kT
  generalize P.piecesCT c 1 = u1
  generalize P.piecesCT c 2 = u2
  generalize P.piecesCT c 3 = u3
  generalize P.piecesCT c 4 = u4
  generalize P.piecesCT c 5 = u5
  generalize P.piecesCT c 8 = u6
  generalize P.piecesCT c 9 = u7
  generalize P.piecesCT c 10 = u8
  generalize P.piecesCT c 30 = u9
  simp only [natAndAssoc, natAndComm, natAndLeftComm, natOrAssoc, natOrComm,
    natOrLeftComm]

/-- The `fastAttacks2` expression is the standard union over the supported
fairy types. -/
theorem attackers_to_fast2 (P : SPos) (c : Color) (s : Square)
    (occ jc : Bitboard) (hfa : P.fastAttacks = false)
    (hfa2 : P.fastAttacks2 = true) :
    attackers_to P s occ c jc = stdUnion P c s occ fairyTypes := by
  rw [attackers_to, if_neg (by rw [hfa]; exact Bool.false_ne_true),
    if_pos hfa2]
  simp only [stdUnion, fairyTypes, stdTerm, stdTable, PAWN, KNIGHT,
    BISHOP, ROOK, QUEEN, ARCHBISHOP, CHANCELLOR, COMMONER, KING,
    BREAKTHROUGH_PIECE, GOLD, DRAGON, DRAGON_HORSE, LANCE, FERS, WAZIR,
    SILVER, SHOGI_KNIGHT, SHOGI_PAWN]
  simp only [Nat.reduceEqDiff, reduceIte, Nat.or_zero]
  simp only [piecesCT2_or, piecesCT3_or, natAndOrL, natAndOrR]
  generalize P.pawnAttacksBb c.flip s = pA
  generalize P.pseudoT 2 s = nT
  generalize P.attacksBbT 4 s occ = rT
  generalize P.attacksBbT 3 s occ = bT
  generalize P.pseudoT 30 s = kT
  generalize P.pseudoT 6 s = fT
  generalize P.pseudoT 7 s = wT
  generalize P.leaperAttacks c.flip 13 s = skT
  generalize P.leaperAttacks c.flip 12 s = spT
  generalize P.pseudoAttacks c.flip 16 s = laP
  generalize P.piecesCT c 1 = u1
  generalize P.piecesCT c 19 = u2
  generalize P.piecesCT c 14 = u3
  generalize P.piecesCT c 2 = u4
  generalize P.piecesCT c 4 = u5
  generalize P.piecesCT c 5 = u6
  generalize P.piecesCT c 17 = u7
  generalize P.piecesCT c 16 = u8
  generalize P.piecesCT c 3 = u9
  generalize P.piecesCT c 18 = u10
  generalize P.piecesCT c 30 = u11
  generalize P.piecesCT c 10 = u12
  generalize P.piecesCT c 6 = u13
  generalize P.piecesCT c 15 = u14
  generalize P.piecesCT c 7 = u15
  generalize P.piecesCT c 13 = u16
  generalize P.piecesCT c 12 = u17
  simp only [natAndAssoc, natAndComm, natAndLeftComm, natOrAssoc, natOrComm,
    natOrLeftComm]

/-- C3 (amended): for every square `s`, hypothetical occupancy `occ` and
color `c`, whenever one of the two fast paths applies to the active rule
set — the configured piece types are covered by the path's type list, the
external attack generator agrees with the precomputed tables for those
types, kings move as kings, there are no asymmetrical riders, no Janggi
palace, the board region covers `s`, and additionally the pawn-cannot-check
zone of `c` is empty — `attackers_to` computed through the fast path
returns exactly the bitboard of the general loop over the configured
piece-type set. As frozen the claim is false: the `fastAttacks` path
subtracts `pawnCannotCheckZone[c]` from the pawn attackers
(position.cpp:1112) while the general loop never consults that zone. -/
theorem C3_fast_path_equivalence (P : SPos) (c : Color) (s : Square)
    (occ jc : Bitboard)
    (hpath : P.fastAttacks = true ∨
      (P.fastAttacks = false ∧ P.fastAttacks2 = true))
    (hzone : P.pawnCannotCheckZone c = 0)
    (hk : P.kingTypeC = KING)
    (hdiag : P.diagonalLines = 0)
    (hasym : ∀ q, P.asymRider q = false)
    (hbb : ∀ pt, bbTest (P.boardBbCP c pt) s = true)
    (hsub : ∀ pt ∈ P.pieceTypesList,
      pt ∈ (if P.fastAttacks then chessLikeTypes else fairyTypes))
    (hzero : ∀ pt, pt ≠ ALL_PIECES → pt ∉ P.pieceTypesList →
      P.byTypeBB pt = 0)
    (htab : ∀ pt ∈ (if P.fastAttacks then chessLikeTypes else fairyTypes),
      P.attacksBbC c.flip pt s occ = stdTable P c s occ pt) :
    attackers_to P s occ c jc = attackersGeneral P s occ c jc := by
  rcases hpath with hfa | ⟨hfa, hfa2⟩
  · simp only [hfa, reduceIte] at hsub htab
    rw [attackers_to_fast1 P c s occ jc hfa hzone,
      attackersGeneral_eq_stdUnion P c s occ jc chessLikeTypes hk hdiag hasym
        hbb (by decide) (by decide) (by decide) hsub hzero htab]
  · simp only [hfa, reduceIte] at hsub htab
    rw [attackers_to_fast2 P c s occ jc hfa hfa2,
      attackersGeneral_eq_stdUnion P c s occ jc fairyTypes hk hdiag hasym
        hbb (by decide) (by decide) (by decide) hsub hzero htab]

/-- Witness for C3: a standard-chess-like rule set with an empty
pawn-cannot-check zone, where the fast path and the general loop agree. -/
theorem C3_fast_path_equivalence_witness :
    attackers_to P3w 21 occ3 Color.white 0 =
      attackersGeneral P3w 21 occ3 Color.white 0 :=
  C3_fast_path_equivalence P3w Color.white 21 occ3 0 (Or.inl rfl) rfl rfl rfl
    (fun _ => rfl)
    (fun _ => by
      show bbTest ((1 <<< 64) - 1) 21 = true
      decide)
    (by decide)
    (fun pt h0 hmem => by
      show (if pt = ALL_PIECES ∨ pt = PAWN then square_bb 12 else 0) = 0
      rw [if_neg]
      rintro (h | h)
      · exact h0 h
      · exact hmem (by rw [h]; decide))
    (by decide)

/-- Counterexample to C3 as frozen: a position whose pawn-cannot-check zone
contains a white pawn that attacks square 21 according to both attack
tables. The `fastAttacks` path reports no attackers while the general loop
reports the pawn. -/
theorem C3_counterexample :
    P3ce.fastAttacks = true ∧
    (∀ pt ∈ chessLikeTypes,
      P3ce.attacksBbC Color.black pt 21 occ3 =
        stdTable P3ce Color.white 21 occ3 pt) ∧
    P3ce.pawnCannotCheckZone Color.white ≠ 0 ∧
    attackers_to P3ce 21 occ3 Color.white 0 = 0 ∧
    attackersGeneral P3ce 21 occ3 Color.white 0 = square_bb 12 ∧
    attackers_to P3ce 21 occ3 Color.white 0 ≠
      attackersGeneral P3ce 21 occ3 Color.white 0 := by
  decide

/-- C1 is refuted by the code: when a promoted piece with no
unpromoted-piece record is captured to hand and the promotion pawn type is
configured per color, `do_move` adds the pawn type of the captured piece's
color (position.cpp:1863) while `undo_move` removes the pawn type of the
moving side (position.cpp:2677), so the hand counts are not restored:
white's hand ends with one extra soldier and one missing pawn. -/
theorem C1_do_undo_hand_divergence :
    handC1 Color.white SOLDIER = 1 ∧
    handC1 Color.white PAWN = -1 ∧
    ¬ (∀ c pt, handC1 c pt = 0) := by
  refine ⟨by decide, by decide,
    fun h => absurd (h Color.white SOLDIER) (by decide)⟩

/-- C2 is refuted by the code: after a capture whose victim goes to prison,
the incremental key contains the prison pair
`Zobrist::inHand[pieceToPrison][oldN] ^ Zobrist::inHand[pieceToPrison][newN]`
(position.cpp:1889-1891) but `set_state` (position.cpp:747-816) hashes no
prison count at all, so the two keys differ by exactly that pair. The
concrete scenario: a white rook on square 0 captures a black knight on
square 8, and the knight enters an empty prison. -/
theorem C2_incremental_key_prison_divergence :
    do_move_key_prison ZC2 (set_state_key ZC2 boardB2 [0, 8] Color.white)
        ⟨Color.white, ROOK⟩ ⟨Color.black, KNIGHT⟩ 0 8 ⟨Color.black, KNIGHT⟩
        0 1 ≠
      set_state_key ZC2 boardA2 [8] Color.black ∧
    do_move_key_prison ZC2 (set_state_key ZC2 boardB2 [0, 8] Color.white)
        ⟨Color.white, ROOK⟩ ⟨Color.black, KNIGHT⟩ 0 8 ⟨Color.black, KNIGHT⟩
        0 1 ^^^
      set_state_key ZC2 boardA2 [8] Color.black =
      ZC2.inHand ⟨Color.black, KNIGHT⟩ 0 ^^^
        ZC2.inHand ⟨Color.black, KNIGHT⟩ 1 := by
  refine ⟨by decide, by decide⟩

/-- C4 is refuted by the code: in a rule set with both check counting and
points counting, parsing the FEN `fen()` printed loses white's points. The
Lichess-style 3check probe of `set()` (position.cpp:584) consumes the
opening brace of the points field without putting it back, so the points
block's `ss >> brace` (position.cpp:592) swallows the first digit of
white's points: a position with checks 3+3, rule50 10, game ply 82 and
points 15 / 7 parses back with white points 5. -/
theorem C4_fen_roundtrip_points_divergence :
    parseTrailer Color.white (printTrailer 3 3 10 82 Color.white 15 7) =
      some (3, 3, 10, 82, 5, 7) ∧
    parseTrailer Color.white (printTrailer 3 3 10 82 Color.white 15 7) ≠
      some (3, 3, 10, 82, 15, 7) := by
  refine ⟨by decide, by decide⟩

end FSX
